import Mathlib

set_option maxRecDepth 1000000

/-!
Verification of the hardware-report parser and scan-bundle ingestion pipeline
of the `control-panel` asset-tracking application.

The Python sources embedded here are `assets/lshw_parser.py` (tree walker,
serial validator, field extractors, synthetic-ID generator, aggregator),
`assets/views.py` (`asset_scan_upload`: identity check, canonical hashing,
deduplication, drive reconciliation, audit logging), `assets/forms.py`
(`HardwareScanUploadForm.clean_file`: bundle structure validation) and
`assets/models.py` (the `Drive` / `HardwareScan` persistence contracts).

Modelling conventions:
* Python-parsed JSON values are modelled by the `Json` mutual inductive below.
  A Python `dict` is a field list with distinct keys in insertion order;
  `None` (both a JSON `null` and the result of a failed `dict.get`) is
  `Json.null`.  JSON numbers are modelled as integers (the documents the
  pipeline handles carry integral sizes; `float` payloads are out of model).
* Code that can raise (`AttributeError` from `(x or "").lower()` on a truthy
  non-string, `TypeError` from `" ".join` on a non-string) is modelled in
  `Except String`; total Python code is modelled by total functions.
* Python `str.strip` / `str.lower` / `str.upper` / `str.isdigit` are modelled
  on ASCII data (every string the claims exercise is ASCII).
* CPython `float` arithmetic reached by `format_bytes` and the RAM-string
  fallback is modelled by exact integer fractions; the two agree whenever the
  float computation is exact (numerators below 2^53, which covers every
  byte count the application meets).
* Recursions over the loosely-structured tree use explicit fuel so that every
  definition is a structural (kernel-computable) function; fuel-sufficiency
  lemmas show the fuel bound never bites.
-/

/-! ## JSON values (Python-parsed documents) -/

mutual
/-- A parsed JSON value / Python object as handled by the parser. -/
inductive Json where
  | null
  | bool (b : Bool)
  | num (n : Int)
  | str (s : String)
  | arr (items : JList)
  | obj (fields : JFields)
deriving Repr
/-- A JSON array payload. -/
inductive JList where
  | nil
  | cons (hd : Json) (tl : JList)
deriving Repr
/-- A JSON object payload: keys in insertion order, assumed distinct
(as produced by `json.loads`). -/
inductive JFields where
  | nil
  | cons (key : String) (val : Json) (tl : JFields)
deriving Repr
end

def JList.toList : JList → List Json
  | .nil => []
  | .cons a t => a :: t.toList

def JFields.toList : JFields → List (String × Json)
  | .nil => []
  | .cons k v t => (k, v) :: t.toList

/-- Build an array value from a Lean list (input convenience). -/
def Json.mkArr (l : List Json) : Json :=
  .arr (l.foldr (fun a acc => JList.cons a acc) JList.nil)

/-- Build an object value from a Lean association list (input convenience). -/
def Json.mkObj (l : List (String × Json)) : Json :=
  .obj (l.foldr (fun p acc => JFields.cons p.1 p.2 acc) JFields.nil)

/-- First binding of `key`, i.e. `dict` lookup (keys are assumed distinct). -/
def assocFind : JFields → String → Option Json
  | .nil, _ => none
  | .cons k v t, key => if k = key then some v else assocFind t key

/-- `d.get(key)` on a dict value; `none` on a non-dict (callers guard). -/
def jget : Json → String → Option Json
  | .obj fs, k => assocFind fs k
  | _, _ => none

/-- `d.get(key, default)`; a missing key yields the default.  With default
`Json.null` this is exactly Python's `d.get(key)` (absent ↦ `None`). -/
def jgetD (n : Json) (k : String) (d : Json) : Json :=
  (jget n k).getD d

/-- `key in d` for a dict value. -/
def jhasKey (n : Json) (k : String) : Bool :=
  (jget n k).isSome

/-- Python truthiness of a parsed JSON value. -/
def truthy : Json → Bool
  | .null => false
  | .bool b => b
  | .num n => n != 0
  | .str s => !s.isEmpty
  | .arr .nil => false
  | .arr _ => true
  | .obj .nil => false
  | .obj _ => true

/-- Python `a or b` specialised to the value positions the views use. -/
def orJ (a b : Json) : Json :=
  if truthy a then a else b

/-- `v == "lit"` between a parsed value and a string literal: only a string
compares equal to a string in Python. -/
def jEqStr (v : Json) (lit : String) : Bool :=
  match v with
  | .str s => s = lit
  | _ => false

def isObjJ : Json → Bool
  | .obj _ => true
  | _ => false

/-! ## ASCII string helpers mirroring the Python `str` methods used -/

def isPyWs (c : Char) : Bool :=
  c = ' ' ∨ c = '\t' ∨ c = '\n' ∨ c = '\x0d' ∨ c = '\x0b' ∨ c = '\x0c'

/-- `str.strip()` (ASCII whitespace). -/
def pyStrip (s : String) : String :=
  String.mk (((s.data.dropWhile isPyWs).reverse.dropWhile isPyWs).reverse)

def asciiLowerChar (c : Char) : Char :=
  if 'A' ≤ c ∧ c ≤ 'Z' then Char.ofNat (c.toNat + 32) else c

def asciiUpperChar (c : Char) : Char :=
  if 'a' ≤ c ∧ c ≤ 'z' then Char.ofNat (c.toNat - 32) else c

/-- `str.lower()` (ASCII). -/
def pyLower (s : String) : String :=
  String.mk (s.data.map asciiLowerChar)

/-- `str.upper()` (ASCII). -/
def pyUpper (s : String) : String :=
  String.mk (s.data.map asciiUpperChar)

/-- Substring test on character lists (Python `needle in hay`). -/
def containsSub (needle : List Char) : List Char → Bool
  | [] => needle.isEmpty
  | hd :: tl => needle.isPrefixOf (hd :: tl) || containsSub needle tl

/-- Python `needle in hay` for strings. -/
def strContains (hay needle : String) : Bool :=
  containsSub needle.data hay.data

/-- Python `s.startswith(p)`. -/
def pyStartsWith (s p : String) : Bool :=
  p.data.isPrefixOf s.data

/-- `str.split()` with no arguments: split on whitespace runs. -/
def splitWsGo : List Char → List Char → List String
  | [], cur => if cur.isEmpty then [] else [String.mk cur.reverse]
  | c :: rest, cur =>
    if isPyWs c then
      if cur.isEmpty then splitWsGo rest []
      else String.mk cur.reverse :: splitWsGo rest []
    else splitWsGo rest (c :: cur)

def pySplitWs (s : String) : List String :=
  splitWsGo s.data []

def isAsciiDigit (c : Char) : Bool :=
  '0' ≤ c ∧ c ≤ '9'

/-- `str.isdigit()` (ASCII digits; nonempty). -/
def pyIsDigit (s : String) : Bool :=
  !s.isEmpty && s.data.all isAsciiDigit

def digitsToNat (l : List Char) : Nat :=
  l.foldl (fun acc c => 10 * acc + (c.toNat - 48)) 0

/-- `int(s)` for a string: optional surrounding whitespace, optional sign,
nonempty digit run (underscore grouping is out of model). -/
def pyIntOfStr (s : String) : Option Int :=
  let t := pyStrip s
  match t.data with
  | [] => none
  | '+' :: ds => if ds ≠ [] ∧ ds.all isAsciiDigit then some (digitsToNat ds) else none
  | '-' :: ds => if ds ≠ [] ∧ ds.all isAsciiDigit then some (-(digitsToNat ds : Int)) else none
  | ds => if ds.all isAsciiDigit then some (digitsToNat ds) else none

/-- `int(v)` on the value shapes the parser feeds it: numbers are themselves,
Python `bool` is an `int` subclass (`int(True) = 1`), numeric strings parse,
anything else raises (modelled as `none`, always met under `try/except`). -/
def pyInt : Json → Option Int
  | .num n => some n
  | .bool b => some (if b then 1 else 0)
  | .str s => pyIntOfStr s
  | _ => none

/-- `float(s)` restricted to plain decimal literals (`16`, `16.`, `16.0`,
`.5`, signed) — the only shapes `format_bytes` output can take; the result
is returned as integer numerator over a power-of-ten denominator.
Exponents/`inf`/`nan` are out of model (unreachable from `format_bytes`). -/
def pyFloatOfStr (s : String) : Option (Int × Nat) :=
  let t := pyStrip s
  let core : List Char → Option (Int × Nat) := fun l =>
    match l.span isAsciiDigit with
    | (intDs, []) =>
      if intDs = [] then none else some ((digitsToNat intDs : Int), 1)
    | (intDs, '.' :: fracDs) =>
      if fracDs.all isAsciiDigit ∧ (intDs ≠ [] ∨ fracDs ≠ []) then
        some ((digitsToNat (intDs ++ fracDs) : Int), 10 ^ fracDs.length)
      else none
    | _ => none
  match t.data with
  | '+' :: rest => core rest
  | '-' :: rest => (core rest).map (fun p => (-p.1, p.2))
  | rest => core rest

/-- Truncation toward zero of `num / den` (Python `int(float)`). -/
def truncDiv (num : Int) (den : Nat) : Int :=
  if 0 ≤ num then ((num.toNat) / den : Nat)
  else -(((-num).toNat / den : Nat) : Int)

/-! ## Node weight (structural size used as walk fuel) -/

mutual
def jweight : Json → Nat
  | .null => 1
  | .bool _ => 1
  | .num _ => 1
  | .str _ => 1
  | .arr l => 1 + jweightL l
  | .obj fs => 1 + jweightF fs
def jweightL : JList → Nat
  | .nil => 0
  | .cons a t => jweight a + jweightL t
def jweightF : JFields → Nat
  | .nil => 0
  | .cons _ v t => jweight v + jweightF t
end

theorem jweight_pos (n : Json) : 0 < jweight n := by
  cases n <;> simp [jweight]

theorem assocFind_jweight : ∀ (fs : JFields) {k : String} {v : Json},
    assocFind fs k = some v → jweight v ≤ jweightF fs
  | .nil, _, _, h => by simp [assocFind] at h
  | .cons k' v' t, k, v, h => by
    simp only [assocFind] at h
    split at h
    · cases h; simp [jweightF]
    · have := assocFind_jweight t h; simp [jweightF]; omega

theorem jget_jweight {n : Json} {k : String} {v : Json}
    (h : jget n k = some v) : jweight v < jweight n := by
  cases n <;> simp [jget] at h
  case obj fs =>
    have := assocFind_jweight _ h
    simp [jweight]; omega

theorem sumMap_jweight_eq : ∀ l : JList, (l.toList.map jweight).sum = jweightL l
  | .nil => by simp [JList.toList, jweightL]
  | .cons a t => by simp [JList.toList, jweightL, sumMap_jweight_eq t]

/-! ## Tree walker (`_walk_nodes`) -/

/-- `n.get("children")` when it is a list, else no children
(mirrors the `isinstance(kids, list)` guard). -/
def jkids (n : Json) : List Json :=
  match jget n "children" with
  | some (.arr l) => l.toList
  | _ => []

theorem jkids_jweight (n : Json) : ((jkids n).map jweight).sum < jweight n := by
  unfold jkids
  split
  · next l h =>
    have h1 := jget_jweight h
    have h2 := sumMap_jweight_eq l
    simp only [jweight] at h1
    omega
  · simpa using jweight_pos n

/-- The `while stack:` loop of `_walk_nodes`: pop the last pushed node, skip
non-dicts, yield dicts and push their `children` (a Python `list.pop()` takes
from the end, so the stack head here is the most recently pushed node and
`stack.extend(kids)` pushes the children in reversed order).  `fuel` only
bounds the iteration count; `walkLoopF_fuel` below shows any fuel at least
the total weight of the stack gives the loop's true (terminating) value. -/
def walkLoopF : Nat → List Json → List Json
  | 0, _ => []
  | _ + 1, [] => []
  | fuel + 1, n :: rest =>
    if isObjJ n then n :: walkLoopF fuel ((jkids n).reverse ++ rest)
    else walkLoopF fuel rest

/-- `_walk_nodes(raw)`: all nodes reachable through `children`, in the
stack-DFS order of the source; empty for a non-dict. -/
def walkNodes (raw : Json) : List Json :=
  if isObjJ raw then walkLoopF (jweight raw) [raw] else []

theorem walkLoopF_fuel : ∀ f g stack, (stack.map jweight).sum ≤ f → f ≤ g →
    walkLoopF f stack = walkLoopF g stack := by
  intro f
  induction f using Nat.strong_induction_on with
  | _ f ih =>
    intro g stack hm hfg
    cases stack with
    | nil => cases f <;> cases g <;> rfl
    | cons n rest =>
      cases f with
      | zero =>
        exfalso
        have := jweight_pos n
        simp only [List.map_cons, List.sum_cons] at hm
        omega
      | succ f' =>
        obtain ⟨g', rfl⟩ : ∃ g', g = g' + 1 := ⟨g - 1, by omega⟩
        simp only [List.map_cons, List.sum_cons] at hm
        simp only [walkLoopF]
        by_cases hobj : isObjJ n
        · simp only [hobj, if_true]
          congr 1
          have hmeas : (((jkids n).reverse ++ rest).map jweight).sum ≤ f' := by
            have hk := jkids_jweight n
            simp only [List.map_append, List.map_reverse, List.sum_append,
              List.sum_reverse]
            omega
          exact ih f' (by omega) g' _ hmeas (by omega)
        · simp only [hobj, if_false]
          have hmeas : (rest.map jweight).sum ≤ f' := by
            have := jweight_pos n
            omega
          exact ih f' (by omega) g' _ hmeas (by omega)

/-! ## Hex digits -/

def hexDigitChar (k : Nat) : Char :=
  let m := k % 16
  if m < 10 then Char.ofNat (48 + m) else Char.ofNat (87 + m)

/-- Lowercase hexadecimal rendering of `n`, `width` digits, most significant
first (as `hashlib`'s `hexdigest` prints each word). -/
def toHexPadded (width n : Nat) : List Char :=
  (List.range width).map (fun i => hexDigitChar (n / 16 ^ (width - 1 - i)))

def isHexChar (c : Char) : Bool :=
  ('0' ≤ c ∧ c ≤ '9') ∨ ('a' ≤ c ∧ c ≤ 'f')

theorem isHexChar_hexDigitChar (k : Nat) : isHexChar (hexDigitChar k) = true := by
  have hb : ∀ m, m < 16 →
      isHexChar (if m < 10 then Char.ofNat (48 + m) else Char.ofNat (87 + m)) = true := by
    decide
  exact hb (k % 16) (Nat.mod_lt _ (by omega))

theorem toHexPadded_length (width n : Nat) : (toHexPadded width n).length = width := by
  simp [toHexPadded]

theorem toHexPadded_hex {width n : Nat} {c : Char} (h : c ∈ toHexPadded width n) :
    isHexChar c = true := by
  simp only [toHexPadded, List.mem_map] at h
  obtain ⟨i, _, rfl⟩ := h
  exact isHexChar_hexDigitChar _

/-! ## UTF-8 encoding (`str.encode("utf-8")`) -/

def utf8Char (c : Char) : List Nat :=
  let n := c.toNat
  if n < 128 then [n]
  else if n < 2048 then [192 + n / 64, 128 + n % 64]
  else if n < 65536 then [224 + n / 4096, 128 + (n / 64) % 64, 128 + n % 64]
  else [240 + n / 262144, 128 + (n / 4096) % 64, 128 + (n / 64) % 64, 128 + n % 64]

def utf8Encode (s : String) : List Nat :=
  s.data.bind utf8Char

/-! ## `json.dumps` (sorted keys, configurable separators / `ensure_ascii`) -/

/-- Escape one character per `json.encoder` rules: named escapes for the
two-character sequences, `\uXXXX` for other control characters, and — with
`ensure_ascii` — for every character outside `0x20`–`0x7e` (astral characters
become a surrogate pair). -/
def dumpsStrEsc (ea : Bool) (c : Char) : List Char :=
  if c = '"' then ['\\', '"']
  else if c = '\\' then ['\\', '\\']
  else if c = '\n' then ['\\', 'n']
  else if c = '\t' then ['\\', 't']
  else if c = '\x0d' then ['\\', 'r']
  else if c = '\x08' then ['\\', 'b']
  else if c = '\x0c' then ['\\', 'f']
  else if c.toNat < 32 then '\\' :: 'u' :: toHexPadded 4 c.toNat
  else if ea ∧ 126 < c.toNat then
    if c.toNat < 65536 then '\\' :: 'u' :: toHexPadded 4 c.toNat
    else
      '\\' :: 'u' :: toHexPadded 4 (55296 + (c.toNat - 65536) / 1024) ++
        '\\' :: 'u' :: toHexPadded 4 (56320 + (c.toNat - 65536) % 1024)
  else [c]

def dumpsStr (ea : Bool) (s : String) : String :=
  "\"" ++ String.mk (s.data.bind (dumpsStrEsc ea)) ++ "\""

/-- Python string `<` comparison: lexicographic on code points. -/
def lexLe : List Char → List Char → Bool
  | [], _ => true
  | _ :: _, [] => false
  | a :: as, b :: bs =>
    if a.toNat < b.toNat then true
    else if b.toNat < a.toNat then false
    else lexLe as bs

def strLeB (a b : String) : Bool :=
  lexLe a.data b.data

def insertSorted (p : String × String) : List (String × String) → List (String × String)
  | [] => [p]
  | q :: t => if strLeB p.1 q.1 then p :: q :: t else q :: insertSorted p t

/-- Stable sort by key — same result as Python's stable `sorted` on the
(distinct) keys of a dict. -/
def sortByKey : List (String × String) → List (String × String)
  | [] => []
  | p :: t => insertSorted p (sortByKey t)

mutual
/-- `json.dumps(v, sort_keys=True, separators=(sepI, sepKV), ensure_ascii=ea)`.
Keys of every object are serialised and then sorted; serialising before
sorting is equivalent because each member's text depends only on that member. -/
def dumpsJ (sepI sepKV : String) (ea : Bool) : Json → String
  | .null => "null"
  | .bool b => if b then "true" else "false"
  | .num n => toString n
  | .str s => dumpsStr ea s
  | .arr l => "[" ++ String.intercalate sepI (dumpsL sepI sepKV ea l) ++ "]"
  | .obj fs =>
    "\x7b" ++
      String.intercalate sepI
        ((sortByKey (dumpsF sepI sepKV ea fs)).map
          (fun p => dumpsStr ea p.1 ++ sepKV ++ p.2)) ++ "\x7d"
def dumpsL (sepI sepKV : String) (ea : Bool) : JList → List String
  | .nil => []
  | .cons a t => dumpsJ sepI sepKV ea a :: dumpsL sepI sepKV ea t
def dumpsF (sepI sepKV : String) (ea : Bool) : JFields → List (String × String)
  | .nil => []
  | .cons k v t => (k, dumpsJ sepI sepKV ea v) :: dumpsF sepI sepKV ea t
end

/-- The canonical serialisation of `asset_scan_upload`:
`json.dumps(bundle, sort_keys=True, separators=(",", ":"), ensure_ascii=False)`.
(The `TypeError` fallback branch of the view cannot fire on parsed-JSON input,
every such value being serialisable.) -/
def canonicalDumps (b : Json) : String :=
  dumpsJ "," ":" false b

/-- The synthetic-serial blob serialisation of `parse_disks`:
`json.dumps(v, sort_keys=True, default=str)` — default separators
`(", ", ": ")`, `ensure_ascii=True`; `default=str` never fires on
parsed-JSON input. -/
def blobDumps (v : Json) : String :=
  dumpsJ ", " ": " true v

/-! ## `str(value)` / `repr(value)` -/

/-- `repr` of a Python string: double quotes when the text contains a single
quote and no double quote, else single quotes; backslash, the quote character
and the common control characters are escaped (other non-printables are out
of model — no claim exercises them). -/
def pyReprStr (s : String) : String :=
  let q : Char := if s.data.contains '\'' ∧ ¬ s.data.contains '"' then '"' else '\''
  let esc : Char → List Char := fun c =>
    if c = '\\' then ['\\', '\\']
    else if c = q then ['\\', q]
    else if c = '\n' then ['\\', 'n']
    else if c = '\x0d' then ['\\', 'r']
    else if c = '\t' then ['\\', 't']
    else [c]
  String.mk (q :: s.data.bind esc ++ [q])

mutual
/-- `repr(value)` for parsed-JSON values (containers print their members'
`repr`, as Python container `repr` does). -/
def pyRepr : Json → String
  | .null => "None"
  | .bool b => if b then "True" else "False"
  | .num n => toString n
  | .str s => pyReprStr s
  | .arr l => "[" ++ String.intercalate ", " (pyReprL l) ++ "]"
  | .obj fs => "\x7b" ++ String.intercalate ", " (pyReprF fs) ++ "\x7d"
def pyReprL : JList → List String
  | .nil => []
  | .cons a t => pyRepr a :: pyReprL t
def pyReprF : JFields → List String
  | .nil => []
  | .cons k v t => (pyReprStr k ++ ": " ++ pyRepr v) :: pyReprF t
end

/-- `str(value)` for parsed-JSON values. -/
def pyStr : Json → String
  | .null => "None"
  | .bool b => if b then "True" else "False"
  | .num n => toString n
  | .str s => s
  | .arr l => pyRepr (.arr l)
  | .obj fs => pyRepr (.obj fs)

/-! ## SHA-1 and SHA-256 (`hashlib`), on byte lists, over `Nat` mod 2^32 -/

def w32 (x : Nat) : Nat := x % 4294967296

def rotl32 (x k : Nat) : Nat :=
  w32 (x <<< k) ||| (x >>> (32 - k))

def rotr32 (x k : Nat) : Nat :=
  (x >>> k) ||| w32 (x <<< (32 - k))

def not32 (x : Nat) : Nat := 4294967295 - x

/-- Big-endian bytes of a 64-bit length field. -/
def be64 (n : Nat) : List Nat :=
  (List.range 8).map (fun i => (n >>> (8 * (7 - i))) % 256)

/-- Merkle–Damgård padding shared by SHA-1 and SHA-256. -/
def shaPad (msg : List Nat) : List Nat :=
  let len := msg.length
  let k := (64 - ((len + 9) % 64)) % 64
  msg ++ 128 :: List.replicate k 0 ++ be64 (8 * len)

/-- Big-endian 32-bit words from bytes. -/
def bytesToWords : List Nat → List Nat
  | b0 :: b1 :: b2 :: b3 :: rest =>
    (b0 * 16777216 + b1 * 65536 + b2 * 256 + b3) :: bytesToWords rest
  | _ => []

/-- Split a word list into 16-word blocks. -/
def groups16 : List Nat → List (List Nat)
  | w0 :: w1 :: w2 :: w3 :: w4 :: w5 :: w6 :: w7 :: w8 :: w9 :: w10 :: w11 ::
      w12 :: w13 :: w14 :: w15 :: rest =>
    [w0, w1, w2, w3, w4, w5, w6, w7, w8, w9, w10, w11, w12, w13, w14, w15] ::
      groups16 rest
  | _ => []

def sha1ExtendW (ws : List Nat) : List Nat :=
  (List.range 64).foldl
    (fun ws j =>
      ws ++ [rotl32 ((ws.getD (j + 13) 0 ^^^ ws.getD (j + 8) 0) ^^^
        (ws.getD (j + 2) 0 ^^^ ws.getD j 0)) 1])
    ws

def sha1Compress (h : Nat × Nat × Nat × Nat × Nat) (chunk : List Nat) :
    Nat × Nat × Nat × Nat × Nat :=
  let ws := sha1ExtendW chunk
  let (h0, h1, h2, h3, h4) := h
  let fin :=
    (List.range 80).foldl
      (fun (st : Nat × Nat × Nat × Nat × Nat) i =>
        let (a, b, c, d, e) := st
        let f :=
          if i < 20 then (b &&& c) ||| (not32 b &&& d)
          else if i < 40 then (b ^^^ c) ^^^ d
          else if i < 60 then ((b &&& c) ||| (b &&& d)) ||| (c &&& d)
          else (b ^^^ c) ^^^ d
        let kc :=
          if i < 20 then 1518500249
          else if i < 40 then 1859775393
          else if i < 60 then 2400959708
          else 3395469782
        let temp := w32 (rotl32 a 5 + f + e + kc + ws.getD i 0)
        (temp, a, rotl32 b 30, c, d))
      (h0, h1, h2, h3, h4)
  match fin with
  | (a, b, c, d, e) =>
    (w32 (h0 + a), w32 (h1 + b), w32 (h2 + c), w32 (h3 + d), w32 (h4 + e))

def sha1Words (msg : List Nat) : Nat × Nat × Nat × Nat × Nat :=
  (groups16 (bytesToWords (shaPad msg))).foldl sha1Compress
    (1732584193, 4023233417, 2562383102, 271733878, 3285377520)

/-- `hashlib.sha1(msg).hexdigest()`. -/
def sha1Hex (msg : List Nat) : String :=
  match sha1Words msg with
  | (a, b, c, d, e) =>
    String.mk (toHexPadded 8 a ++ toHexPadded 8 b ++ toHexPadded 8 c ++
      toHexPadded 8 d ++ toHexPadded 8 e)

def k256 : List Nat :=
  [1116352408, 1899447441, 3049323471, 3921009573, 961987163, 1508970993,
   2453635748, 2870763221, 3624381080, 310598401, 607225278, 1426881987,
   1925078388, 2162078206, 2614888103, 3248222580, 3835390401, 4022224774,
   264347078, 604807628, 770255983, 1249150122, 1555081692, 1996064986,
   2554220882, 2821834349, 2952996808, 3210313671, 3336571891, 3584528711,
   113926993, 338241895, 666307205, 773529912, 1294757372, 1396182291,
   1695183700, 1986661051, 2177026350, 2456956037, 2730485921, 2820302411,
   3259730800, 3345764771, 3516065817, 3600352804, 4094571909, 275423344,
   430227734, 506948616, 659060556, 883997877, 958139571, 1322822218,
   1537002063, 1747873779, 1955562222, 2024104815, 2227730452, 2361852424,
   2428436474, 2756734187, 3204031479, 3329325298]

def sha256ExtendW (ws : List Nat) : List Nat :=
  (List.range 48).foldl
    (fun ws j =>
      let w15 := ws.getD (j + 1) 0
      let w2 := ws.getD (j + 14) 0
      let s0 := (rotr32 w15 7 ^^^ rotr32 w15 18) ^^^ (w15 >>> 3)
      let s1 := (rotr32 w2 17 ^^^ rotr32 w2 19) ^^^ (w2 >>> 10)
      ws ++ [w32 (ws.getD j 0 + s0 + ws.getD (j + 9) 0 + s1)])
    ws

def sha256Compress (h : List Nat) (chunk : List Nat) : List Nat :=
  let ws := sha256ExtendW chunk
  let fin :=
    (List.range 64).foldl
      (fun (st : List Nat) i =>
        match st with
        | [a, b, c, d, e, f, g, hh] =>
          let s1 := (rotr32 e 6 ^^^ rotr32 e 11) ^^^ rotr32 e 25
          let ch := (e &&& f) ^^^ (not32 e &&& g)
          let t1 := w32 (hh + s1 + ch + k256.getD i 0 + ws.getD i 0)
          let s0 := (rotr32 a 2 ^^^ rotr32 a 13) ^^^ rotr32 a 22
          let mj := ((a &&& b) ^^^ (a &&& c)) ^^^ (b &&& c)
          let t2 := w32 (s0 + mj)
          [w32 (t1 + t2), a, b, c, w32 (d + t1), e, f, g]
        | other => other)
      h
  (h.zip fin).map (fun p => w32 (p.1 + p.2))

def sha256Words (msg : List Nat) : List Nat :=
  (groups16 (bytesToWords (shaPad msg))).foldl sha256Compress
    [1779033703, 3144134277, 1013904242, 2773480762, 1359893119, 2600822924,
     528734635, 1541459225]

/-- `hashlib.sha256(msg).hexdigest()`. -/
def sha256Hex (msg : List Nat) : String :=
  String.mk ((sha256Words msg).bind (toHexPadded 8))

/-! ## Serial validator (`_looks_like_serial`, lshw_parser.py lines 36–58) -/

/-- The fixed placeholder deny-list. -/
def badSerials : List String :=
  ["unknown", "none", "n/a", "na", "null", "0", "0000000", "00000000",
   "000000000", "not specified"]

/-- `_looks_like_serial(s)` for a string argument: reject empty strings,
strings shorter than 6 characters after stripping, and (case-insensitively)
the deny-list. -/
def looksLikeSerial (s : String) : Bool :=
  if s.isEmpty then false
  else
    let t := pyStrip s
    if t.length < 6 then false
    else !(badSerials.contains (pyLower t))

/-- `_looks_like_serial(v)` as `parse_disks` actually calls it, on `serial or ""`:
a falsy value has been replaced by `""` (rejected by the empty check before any
`str` method runs), a truthy string is checked, and a truthy non-string raises
`AttributeError` at `s.strip()`. -/
def looksLikeSerialJ (v : Json) : Except String Bool :=
  if !truthy v then pure (looksLikeSerial "")
  else
    match v with
    | .str s => pure (looksLikeSerial s)
    | _ => .error "AttributeError"

/-! ## Raising coercions shared by the extractors -/

/-- `(v or "").lower()`: `""` for a falsy value, lowercase for a truthy
string, `AttributeError` for a truthy non-string. -/
def pyLowerOrEmpty (v : Json) : Except String String :=
  if !truthy v then pure ""
  else
    match v with
    | .str s => pure (pyLower s)
    | _ => .error "AttributeError"

/-- Total value of `pyLowerOrEmpty` on its non-raising inputs (used by the
pure restatements; the junk value for the raising inputs is never reached
under an `Except.ok` hypothesis). -/
def pyLowerOrEmptyD (v : Json) : String :=
  if !truthy v then ""
  else
    match v with
    | .str s => pyLower s
    | _ => ""

theorem pyLowerOrEmpty_ok {v : Json} {s : String}
    (h : pyLowerOrEmpty v = .ok s) : s = pyLowerOrEmptyD v := by
  unfold pyLowerOrEmpty at h
  unfold pyLowerOrEmptyD
  cases hv : truthy v <;> simp only [hv] at h ⊢ <;> cases v <;>
    simp_all [pure, Except.pure]

/-- `(v or "").strip()` with the same raising discipline. -/
def pyStripOrEmpty (v : Json) : Except String String :=
  if !truthy v then pure ""
  else
    match v with
    | .str s => pure (pyStrip s)
    | _ => .error "AttributeError"

/-! ## `format_bytes` (lshw_parser.py lines 304–322)

CPython divides a `float` by `1024.0` and formats with `f"{num:.1f}"`.
The value is modelled as the exact fraction `num / den`; `.1f` formatting is
round-half-even to one decimal, which agrees with CPython whenever the float
value is exact (every quotient `n / 1024^k` with `n < 2^53` is). -/

/-- Round-half-even of `t / den` for naturals. -/
def rheNat (t den : Nat) : Nat :=
  let q := t / den
  let r := t % den
  if den < 2 * r then q + 1
  else if 2 * r < den then q
  else if q % 2 = 0 then q else q + 1

/-- Round-half-even of `t / den` for an integer numerator. -/
def rheInt (t : Int) (den : Nat) : Int :=
  if 0 ≤ t then (rheNat t.toNat den : Nat)
  else -((rheNat (-t).toNat den : Nat) : Int)

/-- `f"{num:.1f}"` of the exact value `num / den`. -/
def fmtOneDec (num : Int) (den : Nat) : String :=
  let tenths := rheInt (10 * num) den
  if tenths < 0 then
    "-" ++ toString ((-tenths).toNat / 10) ++ "." ++ toString ((-tenths).toNat % 10)
  else
    toString (tenths.toNat / 10) ++ "." ++ toString (tenths.toNat % 10)

/-- The unit loop of `format_bytes`: `num` is carried as the exact fraction
`num / den`, dividing by 1024 at each step. -/
def fmtLoop : Int → Nat → List String → String
  | num, den, [] => fmtOneDec num den ++ " PB"
  | num, den, u :: us =>
    if num < 1024 * (den : Int) then fmtOneDec num den ++ " " ++ u
    else fmtLoop num (den * 1024) us

/-- `format_bytes(num_bytes)`; the argument is `Option Int` so that the
`None` input of the falsy guard is representable. -/
def format_bytes (numBytes : Option Int) : String :=
  match numBytes with
  | none => "0 B"
  | some n =>
    if n = 0 then "0 B"
    else fmtLoop n 1 ["B", "KB", "MB", "GB", "TB"]

/-! ## Field extractors (lshw_parser.py) -/

/-- `n.get("class") in (...)` membership against a tuple of literals. -/
def clsInSet (n : Json) (set : List String) : Bool :=
  set.any (fun s => jEqStr (jgetD n "class" .null) s)

/-- The root-level candidate collection of `extract_serial`: the root's
`serial` then `uuid`, kept when they are plausible strings. -/
def rootSerialCands (raw : Json) : List String :=
  ["serial", "uuid"].filterMap (fun k =>
    match jget raw k with
    | some (.str v) => if looksLikeSerial v then some v else none
    | _ => none)

/-- Per-node candidates of the walk phase of `extract_serial`. -/
def nodeSerialCands (n : Json) : List String :=
  (if clsInSet n ["system", "bus", "motherboard", "bridge", "chassis"] then
    match jget n "serial" with
    | some (.str v) => if looksLikeSerial v then [v] else []
    | _ => []
  else []) ++
  (if jEqStr (jgetD n "class" .null) "system" then
    match jget n "uuid" with
    | some (.str v) => if looksLikeSerial v then [v] else []
    | _ => []
  else [])

/-- `extract_serial(raw)` (lines 61–95): root candidates are collected before
the walk; the first candidate wins. -/
def extract_serial (raw : Json) : Option String :=
  if !isObjJ raw then none
  else
    (rootSerialCands raw ++
      (walkNodes raw).foldl (fun acc n => acc ++ nodeSerialCands n) []).head?

/-- The per-node body of the `extract_cpu_info` loop: on a `processor` node
with a non-blank string product, return the formatted result; otherwise the
loop continues to the next node. -/
def procResult (n : Json) : Option String :=
  if jEqStr (jgetD n "class" .null) "processor" then
    match jget n "product" with
    | some (.str p) =>
      if !(pyStrip p).isEmpty then
        match jget n "vendor" with
        | some (.str v) =>
          if !(pyStrip v).isEmpty then some (pyStrip (v ++ " " ++ p))
          else some (pyStrip p)
        | _ => some (pyStrip p)
      else none
    | _ => none
  else none

/-- `extract_cpu_info(raw)` (lines 98–119). -/
def extract_cpu_info (raw : Json) : Option String :=
  if !isObjJ raw then none
  else (walkNodes raw).findSome? procResult

structure SystemInfo where
  vendor : Json
  product : Json
  serial : Json
deriving Repr

/-- `extract_system_info(raw)` (lines 122–135): first `system`-class node,
fields defaulted by `or ""` (non-string truthy values are kept as-is). -/
def extract_system_info (raw : Json) : Option SystemInfo :=
  if !isObjJ raw then none
  else
    (walkNodes raw).findSome? (fun n =>
      if jEqStr (jgetD n "class" .null) "system" then
        some ⟨orJ (jgetD n "vendor" .null) (.str ""),
              orJ (jgetD n "product" .null) (.str ""),
              orJ (jgetD n "serial" .null) (.str "")⟩
      else none)

structure GraphicsInfo where
  product : Json
  vendor : Json
  description : Json
deriving Repr

/-- `extract_graphics(raw)` (lines 138–152). -/
def extract_graphics (raw : Json) : List GraphicsInfo :=
  if !isObjJ raw then []
  else
    (walkNodes raw).filterMap (fun n =>
      if jEqStr (jgetD n "class" .null) "display" then
        some ⟨orJ (jgetD n "product" .null) (orJ (jgetD n "description" .null) (.str "")),
              orJ (jgetD n "vendor" .null) (.str ""),
              orJ (jgetD n "description" .null) (.str "")⟩
      else none)

/-- Monadic filter-map over the walked nodes: the shape of every
`for n in _walk_nodes(...)` accumulation loop whose body can raise. -/
def collectM {α : Type} (f : Json → Except String (Option α)) :
    List Json → Except String (List α)
  | [] => pure []
  | n :: rest => do
    match ← f n with
    | some x => pure (x :: (← collectM f rest))
    | none => collectM f rest

/-- First hit of a monadic search over the walked nodes (a `return` inside a
`for` loop). -/
def firstSomeM {α : Type} (f : Json → Except String (Option α)) :
    List Json → Except String (Option α)
  | [] => pure none
  | n :: rest => do
    match ← f n with
    | some x => pure (some x)
    | none => firstSomeM f rest

structure NetworkInfo where
  product : Json
  logicalname : Json
  mac : Json
  ntype : String
deriving Repr

/-- Loop body of `extract_network` (lines 155–197).  The final
`ethernet`/`network controller` conditional of the source assigns `ntype` to
itself and is omitted as a no-op. -/
def netInfoOf (n : Json) : Except String (Option NetworkInfo) :=
  if jEqStr (jgetD n "class" .null) "network" then do
    let product := orJ (jgetD n "product" .null) (orJ (jgetD n "description" .null) (.str ""))
    let logical := orJ (jgetD n "logicalname" .null) (.str "")
    let serial := orJ (jgetD n "serial" .null) (.str "")
    let cfg := orJ (jgetD n "configuration" .null) (Json.mkObj [])
    let ntype0 :=
      match cfg with
      | .obj _ =>
        if truthy (jgetD cfg "wireless" .null) || truthy (jgetD cfg "wireless-info" .null) ||
            (truthy (jgetD cfg "driver" .null) &&
              strContains (pyStr (jgetD cfg "driver" .null)) "wlan") then
          "wireless"
        else if truthy (jgetD cfg "ip" .null) || truthy (jgetD cfg "ip6" .null) then
          "ethernet"
        else "unknown"
      | _ => "unknown"
    let descText ← pyLowerOrEmpty (jgetD n "description" .null)
    let ntype :=
      if strContains descText "wireless" || strContains descText "wifi" ||
          strContains descText "wlan" then "wireless"
      else ntype0
    pure (some ⟨product, logical, serial, ntype⟩)
  else pure none

/-- `extract_network(raw)`. -/
def extract_network (raw : Json) : Except String (List NetworkInfo) :=
  if !isObjJ raw then pure []
  else collectM netInfoOf (walkNodes raw)

structure MultimediaInfo where
  webcam : Bool
  webcam_model : String
  audio : Bool
  audio_model : String
deriving Repr

/-- Loop body of `extract_multimedia` (lines 200–222), merging into the
accumulated record (first-found models are kept). -/
def mmStep (acc : MultimediaInfo) (n : Json) : Except String MultimediaInfo :=
  if jEqStr (jgetD n "class" .null) "multimedia" then do
    let product ← pyStripOrEmpty
      (orJ (jgetD n "product" .null) (orJ (jgetD n "description" .null) (.str "")))
    let desc := pyLower product
    let acc :=
      if strContains desc "camera" || strContains desc "webcam" ||
          strContains desc "uvc" then
        { acc with webcam := true,
                   webcam_model := if acc.webcam_model.isEmpty then product
                                   else acc.webcam_model }
      else acc
    let acc :=
      if strContains desc "audio" || strContains desc "microphone" ||
          strContains desc "sound" then
        { acc with audio := true,
                   audio_model := if acc.audio_model.isEmpty then product
                                  else acc.audio_model }
      else acc
    pure acc
  else pure acc

/-- `extract_multimedia(raw)`. -/
def extract_multimedia (raw : Json) : Except String MultimediaInfo :=
  if !isObjJ raw then pure ⟨false, "", false, ""⟩
  else (walkNodes raw).foldlM mmStep ⟨false, "", false, ""⟩

inductive BatteryInfo where
  | absent
  | found (product : Json) (vendor : Json) (capacity_bytes : Option Int)
deriving Repr

/-- Loop body of `extract_battery` (lines 225–253): match on `battery` in the
lowered `id`/`description`; `capacity` from `int(size)` when `size` is a
number (`bool` included, being an `int` subclass) or an all-digit string. -/
def batteryOf (n : Json) : Except String (Option BatteryInfo) := do
  let nid ← pyLowerOrEmpty (jgetD n "id" .null)
  let desc ← pyLowerOrEmpty (jgetD n "description" .null)
  if strContains nid "battery" || strContains desc "battery" then
    let product := orJ (jgetD n "product" .null) (orJ (jgetD n "description" .null) (.str ""))
    let vendor := orJ (jgetD n "vendor" .null) (.str "")
    let size := jgetD n "size" .null
    let capacity : Option Int :=
      match size with
      | .num v => some v
      | .bool b => some (if b then 1 else 0)
      | .str s => if pyIsDigit s then some (digitsToNat s.data : Int) else none
      | _ => none
    pure (some (.found product vendor capacity))
  else pure none

/-- `extract_battery(raw)`. -/
def extract_battery (raw : Json) : Except String BatteryInfo :=
  if !isObjJ raw then pure .absent
  else do
    match ← firstSomeM batteryOf (walkNodes raw) with
    | some b => pure b
    | none => pure .absent

/-! ## Disk extraction and the synthetic-ID generator
(`parse_disks`, lines 256–301) -/

structure DiskFact where
  serial : String
  logicalname : String
  size_bytes : Option Int
  model : Json
deriving Repr

/-- The synthetic serial of a serial-less disk:
`"NOSERIAL-" + sha1(json.dumps({"logical":…, "size":…, "model":…},
sort_keys=True, default=str).encode("utf-8")).hexdigest()[:12]`. -/
def synthSerial (logical size model : Json) : String :=
  let blob := blobDumps (Json.mkObj [("logical", logical), ("size", size), ("model", model)])
  "NOSERIAL-" ++ String.mk ((sha1Hex (utf8Encode blob)).data.take 12)

/-- `serial = n.get("serial"); if isinstance(serial, str): serial = serial.strip()`. -/
def diskSerialNorm (n : Json) : Json :=
  match jget n "serial" with
  | some (.str s) => .str (pyStrip s)
  | some v => v
  | none => .null

/-- The plausibility test as `parse_disks` performs it:
`_looks_like_serial(serial or "")` on the normalised serial. -/
def serialCheckOf (n : Json) : Except String Bool :=
  looksLikeSerialJ (orJ (diskSerialNorm n) (.str ""))

/-- Loop body of `parse_disks`: skip non-`disk` nodes; a plausible (hence
string) serial is kept stripped, otherwise the synthetic serial is generated
from the `(logical, size, model)` triple. -/
def diskFactOf (n : Json) : Except String (Option DiskFact) :=
  if jEqStr (jgetD n "class" .null) "disk" then do
    let logical := jget n "logicalname"
    let size := jgetD n "size" .null
    let model := orJ (jgetD n "product" .null) (orJ (jgetD n "description" .null) (.str ""))
    let serial1 := diskSerialNorm n
    let isPlaus ← serialCheckOf n
    let serialF : String :=
      if isPlaus then
        match serial1 with
        | .str s => s
        | _ => ""   -- unreachable: a passed check forces a string serial
      else synthSerial (jgetD n "logicalname" .null) size model
    pure (some
      { serial := serialF,
        logicalname := match logical with | some (.str s) => s | _ => "",
        size_bytes :=
          match size with
          | .num v => some v
          | .bool b => some (if b then 1 else 0)
          | _ => none,
        model := model })
  else pure none

/-- `parse_disks(raw)`. -/
def parse_disks (raw : Json) : Except String (List DiskFact) :=
  if !isObjJ raw then pure []
  else collectM diskFactOf (walkNodes raw)

/-! ## `extract_basic_hw` (lines 325–395) -/

structure BasicHw where
  ram : Option String
  storage : Option String
deriving Repr

/-- Body of the *system memory* search loop shared verbatim by
`extract_basic_hw` and `parse_lshw_json`: on every `memory`-class node with a
truthy size whose lowered description contains `"system memory"`, try
`int(size)`; a conversion failure is swallowed (the previous value stays), a
success overwrites, so the last convertible such node of the walk wins. -/
def sysMemStepM (acc : Option Int) (n : Json) : Except String (Option Int) :=
  if jEqStr (jgetD n "class" .null) "memory" && truthy (jgetD n "size" .null) then do
    let desc ← pyLowerOrEmpty (jgetD n "description" .null)
    if strContains desc "system memory" then
      pure (match pyInt (jgetD n "size" .null) with
        | some v => some v
        | none => acc)
    else pure acc
  else pure acc

def sysMemFold (raw : Json) : Except String (Option Int) :=
  (walkNodes raw).foldlM sysMemStepM none

/-- Body of the fallback summation loop of `extract_basic_hw`: all
`memory`-class truthy-size nodes not described as caches. -/
def sumMemStepM (acc : Int) (n : Json) : Except String Int :=
  if jEqStr (jgetD n "class" .null) "memory" && truthy (jgetD n "size" .null) then do
    let desc ← pyLowerOrEmpty (jgetD n "description" .null)
    if strContains desc "cache" then pure acc
    else
      pure (match pyInt (jgetD n "size" .null) with
        | some v => acc + v
        | none => acc)
  else pure acc

/-- One storage label: `"<size> <model> (SN <serial>)"` parts joined by a
space; `" ".join` raises `TypeError` when a truthy non-string model was
appended. -/
def diskLabel (d : DiskFact) : Except String String := do
  let parts1 : List String :=
    match d.size_bytes with
    | some v => if v ≠ 0 then [format_bytes (some v)] else []
    | none => []
  let parts2 ←
    if truthy d.model then
      match d.model with
      | .str m => pure [m]
      | _ => Except.error "TypeError"
    else pure ([] : List String)
  let parts3 : List String :=
    if !d.serial.isEmpty then
      if pyStartsWith d.serial "NOSERIAL-" then ["(no serial)"]
      else ["(SN " ++ d.serial ++ ")"]
    else []
  pure (String.intercalate " " (parts1 ++ parts2 ++ parts3))

/-- `extract_basic_hw(raw)`: RAM total (authoritative system memory, else the
non-cache sum), storage labels joined by `" + "`; `None` when neither part
was produced (`return result or None`). -/
def extract_basic_hw (raw : Json) : Except String (Option BasicHw) :=
  if !isObjJ raw then pure none
  else do
    let sysmem ← sysMemFold raw
    let total ←
      match sysmem with
      | some v =>
        if v ≠ 0 then pure v else (walkNodes raw).foldlM sumMemStepM 0
      | none => (walkNodes raw).foldlM sumMemStepM 0
    let ram : Option String :=
      if total ≠ 0 then some (format_bytes (some total)) else none
    let disks ← parse_disks raw
    let storage ←
      if disks.isEmpty then pure (none : Option String)
      else do
        let labels ← disks.mapM diskLabel
        pure (some (String.intercalate " + " labels))
    pure (if ram.isNone ∧ storage.isNone then none else some ⟨ram, storage⟩)

/-! ## Memory slots and the aggregator (`parse_lshw_json`, lines 398–518) -/

structure MemorySlot where
  slot : Json
  size_bytes : Option Int
  size_human : Option String
  vendor : Json
  product : Json
  serial : Json
deriving Repr

/-- Loop body of the memory-slot walk: class `bank`, or `"bank"` in the
lowered id/description; `size_bytes` only from numeric sizes (strings are
*not* parsed here, unlike the system-memory total). -/
def slotOf (n : Json) : Except String (Option MemorySlot) := do
  let cls ← pyLowerOrEmpty (jgetD n "class" .null)
  let nid ← pyLowerOrEmpty (jgetD n "id" .null)
  let desc ← pyLowerOrEmpty (jgetD n "description" .null)
  if cls = "bank" || strContains nid "bank" || strContains desc "bank" then
    let slot := orJ (jgetD n "slot" .null)
      (orJ (jgetD n "id" .null) (orJ (jgetD n "description" .null) (.str "")))
    let size := jgetD n "size" .null
    let vendor := orJ (jgetD n "vendor" .null) (.str "")
    let product := orJ (jgetD n "product" .null) (.str "")
    let serial := orJ (jgetD n "serial" .null) (orJ (jgetD n "serial-number" .null) (.str ""))
    let size_bytes : Option Int :=
      match size with
      | .num v => some v
      | .bool b => some (if b then 1 else 0)
      | _ => none
    let size_human : Option String :=
      match size_bytes with
      | some v => if v ≠ 0 then some (format_bytes (some v)) else none
      | none => none
    pure (some ⟨slot, size_bytes, size_human, vendor, product, serial⟩)
  else pure none

def slotsFold (raw : Json) : Except String (List MemorySlot) :=
  collectM slotOf (walkNodes raw)

/-- The RAM-string fallback (the `try` block over `hw_summary["ram"]`):
split, `float` the first token, multiplier from the uppercased second token
(`KB`/`MB`/`GB`/`TB`, anything else 1), truncate; any failure inside the
`try` yields `None`. -/
def parseRamStr (rs : String) : Option Int :=
  match pySplitWs rs with
  | [] => none
  | p0 :: rest =>
    match pyFloatOfStr p0 with
    | none => none
    | some (vnum, vden) =>
      let unit := match rest with | [] => "GB" | u :: _ => pyUpper u
      let mult : Int :=
        if unit = "KB" then 1024
        else if unit = "MB" then 1024 ^ 2
        else if unit = "GB" then 1024 ^ 3
        else if unit = "TB" then 1024 ^ 4
        else 1
      some (truncDiv (vnum * mult) vden)

/-- The total-resolution block of `parse_lshw_json` (lines 471–502), starting
from the system-memory result `mt0`:  keep a truthy `mt0`; else sum the truthy
slot sizes when at least one exists; else parse `hw_summary["ram"]` when it is
a non-blank string (`None` on parse failure); else `mt0` survives unchanged
(`None` — or a residual `0` left by a zero-converting system-memory node). -/
def resolveMemTotal (mt0 : Option Int) (slots : List MemorySlot)
    (hw : Option BasicHw) : Option Int :=
  let mt0Truthy : Bool := match mt0 with | some v => v != 0 | none => false
  if mt0Truthy then mt0
  else
    let step := slots.foldl
      (fun (acc : Int × Bool) ms =>
        match ms.size_bytes with
        | some v => if v ≠ 0 then (acc.1 + v, true) else acc
        | none => acc)
      ((0 : Int), false)
    if step.2 then some step.1
    else
      match hw with
      | some bh =>
        match bh.ram with
        | some rs => if (pyStrip rs).isEmpty then mt0 else parseRamStr rs
        | none => mt0
      | none => mt0

structure Summary where
  device_serial : Option String
  cpu_info : Option String
  hw_summary : Option BasicHw
  disks : List DiskFact
  system_info : Option SystemInfo
  graphics : List GraphicsInfo
  network : List NetworkInfo
  multimedia : MultimediaInfo
  battery : BatteryInfo
  memory_slots : List MemorySlot
  memory_total_bytes : Option Int
deriving Repr

/-- `parse_lshw_json(data)`: the aggregator, running every extractor in the
source's order (so the first raising extractor determines the exception). -/
def parse_lshw_json (data : Json) : Except String Summary := do
  let device_serial := extract_serial data
  let cpu_info := extract_cpu_info data
  let hw_summary ← extract_basic_hw data
  let disks ← parse_disks data
  let system_info := extract_system_info data
  let graphics := extract_graphics data
  let network ← extract_network data
  let multimedia ← extract_multimedia data
  let battery ← extract_battery data
  let mt0 ← sysMemFold data
  let memory_slots ← slotsFold data
  let memory_total_bytes := resolveMemTotal mt0 memory_slots hw_summary
  pure ⟨device_serial, cpu_info, hw_summary, disks, system_info, graphics,
    network, multimedia, battery, memory_slots, memory_total_bytes⟩

/-! ## Scan-bundle validation (`HardwareScanUploadForm.clean_file`, forms.py)

Only the structural checks on the parsed document are modelled; the byte-level
stages (size cap, UTF-8 decode, JSON syntax) precede the existence of a parsed
value and are out of model. -/

def validateBundle (data : Json) : Bool :=
  isObjJ data &&
  jEqStr (jgetD data "schema" .null) "motherboard.scan_bundle.v1" &&
  jhasKey data "generated_at" &&
  (let scanner := jgetD data "scanner" .null
   isObjJ scanner && truthy (jgetD scanner "hostname" .null) &&
     truthy (jgetD scanner "user" .null)) &&
  (let intake := jgetD data "intake" .null
   isObjJ intake && truthy (jgetD intake "asset_id" .null)) &&
  (let sources := jgetD data "sources" .null
   isObjJ sources && jhasKey sources "lshw") &&
  (let meta := jgetD data "meta" .null
   isObjJ meta && jhasKey meta "status")

/-! ## Persisted state (models.py) and the upload view (views.py 219–365) -/

/-- A `HardwareScan` row, with the fields `asset_scan_upload` writes.
`generated_at_raw` keeps the raw bundle value (`parse_datetime` and wall-clock
types are out of model); `id` is the primary key, modelled as the row index at
creation time. -/
structure ScanRec where
  id : Nat
  asset : String
  device_serial : Option String
  raw_json : Json
  bundle_hash : String
  schema : Json
  generated_at_raw : Json
  tech_name : Json
  client_name : Json
  cosmetic_condition : Json
  intake_note : Json
  summary : Option BasicHw
  scanned_at : Nat
  scanned_by : String
  user_notes : String
deriving Repr

/-- A `Drive` row.  `status_at` is declared `auto_now=True` in models.py
(line 167): Django sets it to the current time on *every* save, including the
save performed by `update_or_create` during scan ingestion. -/
structure DriveRec where
  asset : String
  serial : String
  logicalname : String
  capacity_bytes : Option Int
  model : Json
  source : String
  status : String
  status_note : String
  status_by : Option String
  status_at : Nat
deriving Repr

/-- An `AssetTouch` audit row. -/
structure TouchRec where
  asset : String
  touch_type : String
  touched_by : String
  touched_at : Nat
  details : Json
deriving Repr

/-- The persisted state the upload view reads and writes. -/
structure St where
  scans : List ScanRec
  drives : List DriveRec
  touches : List TouchRec
deriving Repr

inductive UploadOutcome where
  | formInvalid
  | rejectedMismatch
  | duplicate
  | saved (driveCount : Nat)
  | pyError (e : String)
deriving DecidableEq, Repr

/-- `intake = bundle.get("intake", {}) or {}`. -/
def bundleIntake (bundle : Json) : Json :=
  orJ (jgetD bundle "intake" (Json.mkObj [])) (Json.mkObj [])

/-- `bundle_asset_id = str(intake.get("asset_id", "") or "")`. -/
def bundleAssetId (bundle : Json) : String :=
  pyStr (orJ (jgetD (bundleIntake bundle) "asset_id" (.str "")) (.str ""))

/-- One iteration of the drive-reconciliation loop (views.py 325–343):
skip blank serials, else `Drive.objects.update_or_create(asset=…, serial=…,
defaults={logicalname, capacity_bytes, model, source="lshw"})`.  The
`(asset, serial)` pair is unique (`unique_together`, models.py 171), so the
first index matches at most one row.  The save stamps `status_at` with the
current time per `auto_now=True`; a created row takes the model defaults
`status="present"`, `status_note=""`, `status_by=None`. -/
def upsertDrive (tag : String) (now : Nat) (drives : List DriveRec)
    (disk : DiskFact) : List DriveRec :=
  if disk.serial.isEmpty || (pyStrip disk.serial).isEmpty then drives
  else
    match drives.findIdx? (fun d => d.asset == tag && d.serial == disk.serial) with
    | some i =>
      match drives.get? i with
      | some d =>
        drives.set i { d with
          logicalname := disk.logicalname,
          capacity_bytes := disk.size_bytes,
          model := disk.model,
          source := "lshw",
          status_at := now }
      | none => drives
    | none =>
      let created : DriveRec :=
        { asset := tag, serial := disk.serial,
          logicalname := disk.logicalname, capacity_bytes := disk.size_bytes,
          model := disk.model, source := "lshw", status := "present",
          status_note := "", status_by := none, status_at := now }
      drives ++ [created]

/-- The audit detail payload `{"scan_id": …, "device_serial": …,
"drive_count": len(disks)}`. -/
def scanDetails (scanId : Nat) (device_serial : Option String)
    (driveCount : Nat) : Json :=
  Json.mkObj [("scan_id", .num scanId),
    ("device_serial", match device_serial with | some s => .str s | none => .null),
    ("drive_count", .num driveCount)]

/-- `asset_scan_upload` (views.py 219–365), from form validation to the final
audit touch, threading the persisted state explicitly.  The returned outcome
distinguishes the form-validation failure, the `asset_id`-mismatch rejection,
the duplicate no-op, the saved path (with the reported drive count) and a
propagated Python exception (every raising step precedes the first write, so
an exception leaves the state unchanged).  `now` stands for the wall-clock
instant of the request; `user` is `request.user`. -/
def asset_scan_upload (asset_tag user user_notes : String) (now : Nat)
    (bundle : Json) (st : St) : St × UploadOutcome :=
  if !validateBundle bundle then (st, .formInvalid)
  else
    let intake := bundleIntake bundle
    match intake with
    | .obj _ =>
      if bundleAssetId bundle ≠ asset_tag then (st, .rejectedMismatch)
      else
        let canonical := canonicalDumps bundle
        let bundle_hash := sha256Hex (utf8Encode canonical)
        if st.scans.any (fun s => s.asset == asset_tag && s.bundle_hash == bundle_hash) then
          (st, .duplicate)
        else
          let sources := orJ (jgetD bundle "sources" (Json.mkObj [])) (Json.mkObj [])
          match sources with
          | .obj _ =>
            let lshw := jgetD sources "lshw" .null
            -- `parsed = {}` then `if lshw_json: parsed = parse_lshw_json(...) or {}`
            -- (the `or {}` never fires: the summary dict is always truthy)
            let parsedE : Except String (Option Summary) :=
              if truthy lshw then (parse_lshw_json lshw).map some else pure none
            match parsedE with
            | .error e => (st, .pyError e)
            | .ok parsed =>
              let device_serial := parsed.bind (·.device_serial)
              let hw_summary := parsed.bind (·.hw_summary)
              let disks := (parsed.map (·.disks)).getD []
              let scan : ScanRec := {
                id := st.scans.length,
                asset := asset_tag,
                device_serial := device_serial,
                raw_json := bundle,
                bundle_hash := bundle_hash,
                schema := jgetD bundle "schema" (.str ""),
                generated_at_raw := jgetD bundle "generated_at" .null,
                tech_name := orJ (jgetD intake "tech_name" (.str "")) (.str ""),
                client_name := orJ (jgetD intake "client_name" (.str "")) (.str ""),
                cosmetic_condition := orJ (jgetD intake "cosmetic_condition" (.str "")) (.str ""),
                intake_note := orJ (jgetD intake "note" (.str "")) (.str ""),
                summary := hw_summary,
                scanned_at := now,
                scanned_by := user,
                user_notes := user_notes }
              let drives1 := disks.foldl (fun ds d => upsertDrive asset_tag now ds d) st.drives
              let touch : TouchRec := {
                asset := asset_tag,
                touch_type := "scan_upload",
                touched_by := user,
                touched_at := now,
                details := scanDetails scan.id device_serial disks.length }
              ({ scans := st.scans ++ [scan], drives := drives1,
                 touches := st.touches ++ [touch] }, .saved disks.length)
          | _ => (st, .pyError "AttributeError")
    | _ => (st, .pyError "AttributeError")

/-! ## General helper lemmas -/

theorem strAppend_length (a b : String) : (a ++ b).length = a.length + b.length :=
  String.length_append a b

/-- An early-`return` search loop over per-node partial results equals a
`find?` over the node predicate followed by the per-node result. -/
theorem findSome?_eq_find?_bind {α β : Type} (f : α → Option β) (p : α → Bool)
    (hf : ∀ a, p a = false → f a = none) (hf2 : ∀ a, p a = true → (f a).isSome) :
    ∀ l : List α, l.findSome? f = (l.find? p).bind f := by
  intro l
  induction l with
  | nil => rfl
  | cons a t ih =>
    rw [List.findSome?_cons, List.find?_cons]
    cases hp : p a with
    | true =>
      have := hf2 a hp
      cases hfa : f a with
      | some b => simp [hfa]
      | none => rw [hfa] at this; simp at this
    | false => rw [hf a hp]; simpa using ih

/-- A monadic fold that succeeded agrees with the pure fold whose step agrees
pointwise on successes. -/
theorem foldlM_except_ok {α β : Type} (fM : β → α → Except String β)
    (fP : β → α → β) (hfg : ∀ b a r, fM b a = .ok r → r = fP b a) :
    ∀ (l : List α) (b r : β), l.foldlM fM b = .ok r → r = l.foldl fP b := by
  intro l
  induction l with
  | nil =>
    intro b r h
    simp only [List.foldlM_nil, pure] at h
    cases h
    rfl
  | cons a t ih =>
    intro b r h
    rw [List.foldlM_cons] at h
    cases hfa : fM b a with
    | error e => rw [hfa] at h; simp [bind, Except.bind] at h
    | ok b' =>
      rw [hfa] at h
      simp only [bind, Except.bind] at h
      rw [List.foldl_cons, ← hfg b a b' hfa]
      exact ih b' r h

/-! ## C6 — serial plausibility -/

/-- **C6.**  `is_plausible_serial` (`_looks_like_serial`) returns `false` for
every whitespace-only (hence also empty) string, for every string whose
stripped form is shorter than 6 characters, and for every string whose
stripped lowercase form is on the deny-list; it returns `true` for every
other string of sufficient stripped length. -/
theorem looks_like_serial_spec (s : String) :
    (s.data.all isPyWs = true → looksLikeSerial s = false) ∧
    ((pyStrip s).length < 6 → looksLikeSerial s = false) ∧
    (badSerials.contains (pyLower (pyStrip s)) = true → looksLikeSerial s = false) ∧
    (6 ≤ (pyStrip s).length → badSerials.contains (pyLower (pyStrip s)) = false →
      looksLikeSerial s = true) := by
  have hws : s.data.all isPyWs = true → (pyStrip s).length < 6 := by
    intro h
    have h1 : s.data.dropWhile isPyWs = [] := by
      rw [List.dropWhile_eq_nil_iff]
      intro x hx
      exact List.all_eq_true.mp h x hx
    simp [pyStrip, h1, String.length_mk]
  refine ⟨?_, ?_, ?_, ?_⟩
  · intro h
    have := hws h
    by_cases he : s.isEmpty
    · simp [looksLikeSerial, he]
    · simp [looksLikeSerial, he, this]
  · intro h
    by_cases he : s.isEmpty
    · simp [looksLikeSerial, he]
    · simp [looksLikeSerial, he, h]
  · intro h
    by_cases he : s.isEmpty
    · simp [looksLikeSerial, he]
    · by_cases hl : (pyStrip s).length < 6
      · simp [looksLikeSerial, he, hl]
      · simp only [looksLikeSerial, he, if_false, hl, Bool.not_eq_true]
        simpa using h
  · intro h1 h2
    have he : s.isEmpty = false := by
      cases hse : s.isEmpty
      · rfl
      · exfalso
        have hs : s = "" := (String.isEmpty_iff s).mp hse
        subst hs
        have : pyStrip "" = "" := rfl
        rw [this] at h1
        simp [String.length] at h1
    have hl : ¬ (pyStrip s).length < 6 := by omega
    simp only [looksLikeSerial, he, Bool.false_eq_true, if_false, hl,
      Bool.not_eq_true]
    simpa using h2

/-- Witness for C6 at `" unknown "` (deny-list, length ≥ 6 stripped? no —
deny-list entry), `"  "` (whitespace-only) and `"ABC123XY"` (accepted). -/
theorem looks_like_serial_spec_witness :
    looksLikeSerial "  " = false ∧ looksLikeSerial " unknown " = false ∧
    looksLikeSerial "ABC123XY" = true :=
  ⟨(looks_like_serial_spec "  ").1 (by decide),
   (looks_like_serial_spec " unknown ").2.2.1 (by decide),
   (looks_like_serial_spec "ABC123XY").2.2.2 (by decide) (by decide)⟩

/-! ## C7 — `format_bytes` -/

/-- **C7.**  `format_bytes` renders `"0 B"` for `None`/zero input; a positive
input is divided through the units `B, KB, MB, GB, TB`, formatted to one
decimal place at the first unit whose remaining value is below 1024, falling
through to `PB`; in particular `format_bytes(1024) = "1.0 KB"` and
`format_bytes(1024**4) = "1.0 TB"`. -/
theorem format_bytes_spec :
    format_bytes none = "0 B" ∧ format_bytes (some 0) = "0 B" ∧
    format_bytes (some 1024) = "1.0 KB" ∧
    format_bytes (some (1024 ^ 4)) = "1.0 TB" ∧
    ∀ n : Int, 0 < n →
      ((n < 1024 → format_bytes (some n) = fmtOneDec n 1 ++ " B") ∧
       (1024 ≤ n → n < 1024 ^ 2 →
         format_bytes (some n) = fmtOneDec n 1024 ++ " KB") ∧
       (1024 ^ 2 ≤ n → n < 1024 ^ 3 →
         format_bytes (some n) = fmtOneDec n (1024 ^ 2) ++ " MB") ∧
       (1024 ^ 3 ≤ n → n < 1024 ^ 4 →
         format_bytes (some n) = fmtOneDec n (1024 ^ 3) ++ " GB") ∧
       (1024 ^ 4 ≤ n → n < 1024 ^ 5 →
         format_bytes (some n) = fmtOneDec n (1024 ^ 4) ++ " TB") ∧
       (1024 ^ 5 ≤ n → format_bytes (some n) = fmtOneDec n (1024 ^ 5) ++ " PB")) := by
  refine ⟨rfl, rfl, by rfl, by rfl, ?_⟩
  intro n hn
  have hn0 : ¬ n = 0 := by omega
  refine ⟨?_, ?_, ?_, ?_, ?_, ?_⟩
  · intro h1
    simp only [format_bytes, hn0, if_false, fmtLoop]
    rw [if_pos (by push_cast; omega)]
    rw [String.append_assoc]
    rfl
  · intro h1 h2
    simp only [format_bytes, hn0, if_false, fmtLoop]
    rw [if_neg (by push_cast; omega), if_pos (by push_cast; omega)]
    rw [String.append_assoc]
    rfl
  · intro h1 h2
    simp only [format_bytes, hn0, if_false, fmtLoop]
    rw [if_neg (by push_cast; omega), if_neg (by push_cast; omega),
      if_pos (by push_cast; omega)]
    rw [String.append_assoc]
    rfl
  · intro h1 h2
    simp only [format_bytes, hn0, if_false, fmtLoop]
    rw [if_neg (by push_cast; omega), if_neg (by push_cast; omega),
      if_neg (by push_cast; omega), if_pos (by push_cast; omega)]
    rw [String.append_assoc]
    rfl
  · intro h1 h2
    simp only [format_bytes, hn0, if_false, fmtLoop]
    rw [if_neg (by push_cast; omega), if_neg (by push_cast; omega),
      if_neg (by push_cast; omega), if_neg (by push_cast; omega),
      if_pos (by push_cast; omega)]
    rw [String.append_assoc]
    rfl
  · intro h1
    simp only [format_bytes, hn0, if_false, fmtLoop]
    rw [if_neg (by push_cast; omega), if_neg (by push_cast; omega),
      if_neg (by push_cast; omega), if_neg (by push_cast; omega),
      if_neg (by push_cast; omega)]
    rfl

/-- Witness for C7's unit-escalation clause at `n = 2048`. -/
theorem format_bytes_spec_witness :
    (0 : Int) < 2048 ∧ (1024 : Int) ≤ 2048 ∧ (2048 : Int) < 1024 ^ 2 ∧
    format_bytes (some 2048) = fmtOneDec 2048 1024 ++ " KB" :=
  ⟨by norm_num, by norm_num, by norm_num,
    ((format_bytes_spec.2.2.2.2 2048 (by norm_num)).2.1 (by norm_num) (by norm_num))⟩

/-! ## C10 — root serial priority in `extract_serial` -/

/-- No plausible string serial sits at the root's own `serial` key. -/
def noPlausibleRootSerial (raw : Json) : Prop :=
  ∀ v, jget raw "serial" = some (.str v) → looksLikeSerial v = false

/-- **C10.**  When the root node carries a plausible string `serial`,
`extract_serial` deterministically returns it, whatever the rest of the tree
holds (root candidates are collected before the walk, `serial` before
`uuid`); failing that, a plausible root `uuid` is returned.  The
non-deterministic tie-break can therefore only arise when the root offers
neither. -/
theorem extract_serial_root_priority :
    (∀ (raw : Json) (v : String), jget raw "serial" = some (.str v) →
      looksLikeSerial v = true → extract_serial raw = some v) ∧
    (∀ (raw : Json) (u : String), noPlausibleRootSerial raw →
      jget raw "uuid" = some (.str u) → looksLikeSerial u = true →
      extract_serial raw = some u) := by
  constructor
  · intro raw v hser hlook
    cases raw <;> simp [jget] at hser
    next fs =>
    have hroot : rootSerialCands (.obj fs) =
        v :: List.filterMap (fun k =>
          match jget (.obj fs) k with
          | some (.str v) => if looksLikeSerial v then some v else none
          | _ => none) ["uuid"] := by
      simp only [rootSerialCands, List.filterMap_cons]
      rw [show jget (Json.obj fs) "serial" = some (.str v) by simp [jget, hser]]
      simp [hlook]
    rw [show extract_serial (Json.obj fs) =
      (rootSerialCands (Json.obj fs) ++
        (walkNodes (Json.obj fs)).foldl (fun acc n => acc ++ nodeSerialCands n) []).head?
      from rfl, hroot]
    simp
  · intro raw u hnone huuid hlook
    cases raw <;> simp [jget] at huuid
    next fs =>
    have hser : List.filterMap (fun k =>
        match jget (.obj fs) k with
        | some (.str v) => if looksLikeSerial v then some v else none
        | _ => none) ["serial"] = [] := by
      simp only [List.filterMap_cons]
      cases hjs : jget (.obj fs) "serial" with
      | none => simp
      | some w =>
        cases w <;> simp
        next v =>
          have := hnone v (by simpa [jget] using hjs)
          simp [this]
    have hroot : rootSerialCands (.obj fs) = [u] := by
      simp only [rootSerialCands]
      rw [show (["serial", "uuid"] : List String) = ["serial"] ++ ["uuid"] from rfl,
        List.filterMap_append, hser]
      simp only [List.filterMap_cons]
      rw [show jget (Json.obj fs) "uuid" = some (.str u) by simp [jget, huuid]]
      simp [hlook]
    rw [show extract_serial (Json.obj fs) =
      (rootSerialCands (Json.obj fs) ++
        (walkNodes (Json.obj fs)).foldl (fun acc n => acc ++ nodeSerialCands n) []).head?
      from rfl, hroot]
    simp

/-- Witness for C10 at a document whose root serial is plausible and whose
subtree offers a competing system serial. -/
theorem extract_serial_root_priority_witness :
    jget (Json.mkObj [("serial", .str "ROOT123456"),
      ("children", Json.mkArr [Json.mkObj [("class", .str "system"),
        ("serial", .str "DEEP654321")]])]) "serial" = some (.str "ROOT123456") ∧
    looksLikeSerial "ROOT123456" = true ∧
    extract_serial (Json.mkObj [("serial", .str "ROOT123456"),
      ("children", Json.mkArr [Json.mkObj [("class", .str "system"),
        ("serial", .str "DEEP654321")]])]) = some "ROOT123456" :=
  ⟨rfl, rfl, extract_serial_root_priority.1 _ "ROOT123456" rfl rfl⟩

/-! ## C9 — CPU extraction -/

/-- The claim's reading of `extract_cpu_info`, formalised from its words: the
result is determined by the *first* `processor`-class node of the walk —
`"{vendor} {product}"` when both are present, else just the product, and
`None` only when no processor node exists at all. -/
def cpuClaimRule (raw : Json) : Option String :=
  match (walkNodes raw).find?
      (fun n => jEqStr (jgetD n "class" .null) "processor") with
  | none => none
  | some n =>
    match jget n "product", jget n "vendor" with
    | some (.str p), some (.str v) => some (v ++ " " ++ p)
    | some (.str p), _ => some p
    | _, _ => none

/-- A document whose first walked processor node has no product, while a
deeper processor node has one: the source skips the first and answers from
the second. -/
def c9doc : Json :=
  Json.mkObj [("class", .str "processor"),
    ("children", Json.mkArr [Json.mkObj
      [("class", .str "processor"), ("product", .str "X")]])]

/-- **C9, counterexample.**  At `c9doc` the code returns `"X"` from the
*second* processor node of the walk, while the claim's first-processor rule
yields no product at all: the claim as stated is false. -/
theorem cpu_first_processor_cex :
    extract_cpu_info c9doc = some "X" ∧ cpuClaimRule c9doc = none ∧
    some "X" ≠ (none : Option String) :=
  ⟨rfl, rfl, by simp⟩

/-- The walked node has a `processor` class and a non-blank string product. -/
def isProcWithProduct (n : Json) : Bool :=
  jEqStr (jgetD n "class" .null) "processor" &&
    (match jget n "product" with
     | some (.str p) => !(pyStrip p).isEmpty
     | _ => false)

/-- C9 as amended: the first walked `processor` node *with a non-blank string
product* decides the result — `"{vendor} {product}"` stripped when the vendor
is a non-blank string too, else the stripped product; `None` when no
processor node has a non-blank product. -/
def cpuAmendedRule (raw : Json) : Option String :=
  if !isObjJ raw then none
  else
    match (walkNodes raw).find? isProcWithProduct with
    | none => none
    | some n =>
      match jget n "product", jget n "vendor" with
      | some (.str p), some (.str v) =>
        if !(pyStrip v).isEmpty then some (pyStrip (v ++ " " ++ p))
        else some (pyStrip p)
      | some (.str p), _ => some (pyStrip p)
      | _, _ => none

theorem procResult_eq_none {n : Json} (h : isProcWithProduct n = false) :
    procResult n = none := by
  unfold isProcWithProduct at h
  unfold procResult
  by_cases hc : jEqStr (jgetD n "class" .null) "processor"
  · simp only [hc, Bool.true_and] at h
    simp only [hc, if_true]
    cases hp : jget n "product" with
    | none => rfl
    | some w =>
      cases w <;> simp_all
  · simp [hc]

theorem procResult_isSome {n : Json} (h : isProcWithProduct n = true) :
    (procResult n).isSome := by
  unfold isProcWithProduct at h
  unfold procResult
  simp only [Bool.and_eq_true] at h
  obtain ⟨hc, hp⟩ := h
  simp only [hc, if_true]
  cases hjp : jget n "product" with
  | none => rw [hjp] at hp; simp at hp
  | some w =>
    cases w <;> rw [hjp] at hp <;> simp_all
    next p =>
    cases hv : jget n "vendor" with
    | none => simp
    | some w2 => cases w2 <;> simp <;> split <;> simp

theorem procResult_of_proc {n : Json} (h : isProcWithProduct n = true) :
    procResult n =
      (match jget n "product", jget n "vendor" with
       | some (.str p), some (.str v) =>
         if !(pyStrip v).isEmpty then some (pyStrip (v ++ " " ++ p))
         else some (pyStrip p)
       | some (.str p), _ => some (pyStrip p)
       | _, _ => none) := by
  unfold isProcWithProduct at h
  rw [Bool.and_eq_true] at h
  obtain ⟨hc, hprod⟩ := h
  unfold procResult
  simp only [hc, if_true]
  revert hprod
  cases hjp : jget n "product" with
  | none => intro hprod; simp at hprod
  | some w =>
    cases w with
    | str p =>
      intro hprod
      simp only at hprod
      simp only [hprod, if_true]
      cases hv : jget n "vendor" with
      | none => simp
      | some w2 => cases w2 <;> simp
    | null => intro hprod; simp at hprod
    | bool b => intro hprod; simp at hprod
    | num m => intro hprod; simp at hprod
    | arr l => intro hprod; simp at hprod
    | obj fs => intro hprod; simp at hprod

/-- **C9, amended.**  `extract_cpu_info` equals the amended first-match rule
on every document. -/
theorem cpu_extraction_amended (raw : Json) :
    extract_cpu_info raw = cpuAmendedRule raw := by
  unfold extract_cpu_info cpuAmendedRule
  cases hobj : isObjJ raw with
  | false => simp
  | true =>
    simp only [Bool.not_true, Bool.false_eq_true, if_false]
    rw [findSome?_eq_find?_bind procResult isProcWithProduct
      (fun a ha => procResult_eq_none ha) (fun a ha => procResult_isSome ha)]
    cases hf : (walkNodes raw).find? isProcWithProduct with
    | none => rfl
    | some n =>
      have hp : isProcWithProduct n = true := List.find?_some hf
      simp only [Option.bind]
      exact procResult_of_proc hp

/-! ## C3 — synthetic serial shape and determinism -/

theorem sha1Hex_length (msg : List Nat) : (sha1Hex msg).data.length = 40 := by
  unfold sha1Hex
  rcases sha1Words msg with ⟨a, b, c, d, e⟩
  simp [List.length_append, toHexPadded_length]

theorem sha1Hex_hex (msg : List Nat) :
    ∀ c ∈ (sha1Hex msg).data, isHexChar c = true := by
  unfold sha1Hex
  rcases sha1Words msg with ⟨a, b, c, d, e⟩
  intro ch hch
  simp only [List.mem_append] at hch
  rcases hch with ((((h | h) | h) | h) | h) <;> exact toHexPadded_hex h

theorem mem_of_mem_mk_take {c : Char} (n : Nat) (l : List Char)
    (h : c ∈ (String.mk (List.take n l)).data) : c ∈ l :=
  List.take_subset n l h

theorem synthSerial_shape (logical size model : Json) :
    ∃ t : String, synthSerial logical size model = "NOSERIAL-" ++ t ∧
      t.length = 12 ∧ ∀ c ∈ t.data, isHexChar c = true := by
  refine ⟨String.mk (List.take 12 (sha1Hex (utf8Encode (blobDumps (Json.mkObj
    [("logical", logical), ("size", size), ("model", model)])))).data),
    rfl, ?_, ?_⟩
  · rw [String.length_mk, List.length_take, sha1Hex_length]
    omega
  · intro c hc
    exact sha1Hex_hex _ c (mem_of_mem_mk_take 12 _ hc)

theorem diskFact_serial_synth {n : Json} {fact : DiskFact}
    (hfact : diskFactOf n = .ok (some fact))
    (hcheck : serialCheckOf n = .ok false) :
    fact.serial = synthSerial (jgetD n "logicalname" .null) (jgetD n "size" .null)
      (orJ (jgetD n "product" .null) (orJ (jgetD n "description" .null) (.str ""))) := by
  unfold diskFactOf at hfact
  cases hcls : jEqStr (jgetD n "class" .null) "disk" with
  | false => rw [hcls] at hfact; simp [pure, Except.pure] at hfact
  | true =>
    rw [hcls] at hfact
    simp only [if_true, hcheck, bind, Except.bind, pure, Except.pure] at hfact
    have := (Option.some.injEq _ _).mp (Except.ok.injEq _ _ ▸ hfact)
    cases hfact
    rfl

/-- **C3.**  A disk node whose reported serial fails the plausibility check
gets a serial of total length 21: the prefix `"NOSERIAL-"` followed by
exactly 12 hexadecimal characters; and two such extractions with identical
`(logical, size, model)` triples produce the identical synthetic serial. -/
theorem synthetic_serial_shape (n : Json) (fact : DiskFact)
    (hfact : diskFactOf n = .ok (some fact))
    (hcheck : serialCheckOf n = .ok false) :
    fact.serial.length = 21 ∧
    (∃ t : String, fact.serial = "NOSERIAL-" ++ t ∧ t.length = 12 ∧
      ∀ c ∈ t.data, isHexChar c = true) ∧
    (∀ (n2 : Json) (fact2 : DiskFact), diskFactOf n2 = .ok (some fact2) →
      serialCheckOf n2 = .ok false →
      jgetD n2 "logicalname" .null = jgetD n "logicalname" .null →
      jgetD n2 "size" .null = jgetD n "size" .null →
      orJ (jgetD n2 "product" .null) (orJ (jgetD n2 "description" .null) (.str "")) =
        orJ (jgetD n "product" .null) (orJ (jgetD n "description" .null) (.str "")) →
      fact2.serial = fact.serial) := by
  have hser := diskFact_serial_synth hfact hcheck
  obtain ⟨t, ht, htlen, hthex⟩ := synthSerial_shape (jgetD n "logicalname" .null)
    (jgetD n "size" .null)
    (orJ (jgetD n "product" .null) (orJ (jgetD n "description" .null) (.str "")))
  refine ⟨?_, ⟨t, by rw [hser, ht], htlen, hthex⟩, ?_⟩
  · rw [hser, ht, strAppend_length, htlen]
    rfl
  · intro n2 fact2 hfact2 hcheck2 hl hs hm
    have hser2 := diskFact_serial_synth hfact2 hcheck2
    rw [hser2, hl, hs, hm, hser]

/-- The `"0000000"`-serial scenario node of the claim. -/
def c3node : Json :=
  Json.mkObj [("class", .str "disk"), ("serial", .str "0000000")]

/-- The disk fact the source extracts from `c3node`. -/
def c3fact : DiskFact :=
  { serial := synthSerial .null .null (.str ""), logicalname := "",
    size_bytes := none, model := .str "" }

/-- Witness for C3 at the deny-listed serial `"0000000"`. -/
theorem synthetic_serial_shape_witness : c3fact.serial.length = 21 :=
  (synthetic_serial_shape c3node c3fact (by rfl) (by rfl)).1

/-! ## C8 — the aggregator is *not* total -/

/-- A one-node document whose `description` is the number `1`. -/
def c8doc : Json := Json.mkObj [("description", .num 1)]

/-- **C8 (code bug).**  The claim says `parse_lshw_json` never raises and
degrades every extractor on malformed input; the code instead raises
`AttributeError` on `c8doc`: `extract_battery` runs
`(n.get("description") or "").lower()` on every node, and the truthy
non-string `1` has no `lower` method.  (The guards `isinstance(size, ...)`
and the pervasive `try/except` blocks elsewhere show graceful degradation was
the intent.) -/
theorem parse_lshw_json_raises_on_nonstring_description :
    parse_lshw_json c8doc = .error "AttributeError" := by rfl

/-! ## C1 — idempotent re-ingestion of a duplicate bundle -/

theorem bundleIntake_obj_of_valid {b : Json} (h : validateBundle b = true) :
    ∃ fs, bundleIntake b = .obj fs := by
  unfold validateBundle at h
  simp only [Bool.and_eq_true] at h
  have hobj : isObjJ (jgetD b "intake" .null) = true := h.1.1.2.1
  have hass : truthy (jgetD (jgetD b "intake" .null) "asset_id" .null) = true :=
    h.1.1.2.2
  cases hj : jget b "intake" with
  | none =>
    simp only [jgetD, hj, Option.getD, isObjJ] at hobj
    exact Bool.noConfusion hobj
  | some v =>
    cases v with
    | obj fs =>
      cases fs with
      | nil =>
        rw [show jgetD b "intake" Json.null = Json.obj JFields.nil by
          simp [jgetD, hj]] at hass
        simp [jgetD, jget, assocFind, truthy] at hass
      | cons k v0 t =>
        refine ⟨JFields.cons k v0 t, ?_⟩
        unfold bundleIntake
        simp only [jgetD, hj, Option.getD]
        simp [orJ, truthy]
    | null =>
      simp only [jgetD, hj, Option.getD, isObjJ] at hobj
      exact Bool.noConfusion hobj
    | bool b0 =>
      simp only [jgetD, hj, Option.getD, isObjJ] at hobj
      exact Bool.noConfusion hobj
    | num n0 =>
      simp only [jgetD, hj, Option.getD, isObjJ] at hobj
      exact Bool.noConfusion hobj
    | str s0 =>
      simp only [jgetD, hj, Option.getD, isObjJ] at hobj
      exact Bool.noConfusion hobj
    | arr l0 =>
      simp only [jgetD, hj, Option.getD, isObjJ] at hobj
      exact Bool.noConfusion hobj

/-- **C1.**  Re-ingesting a bundle whose canonical serialisation (sorted
keys, compact separators) equals that of a bundle already persisted for the
same asset is a no-op success: the view short-circuits at the
`(asset, bundle_hash)` dedupe lookup, so no scan row, no drive row and no
audit touch is created — the state after equals the state before. -/
theorem scan_upload_duplicate_noop (tag user notes : String) (now : Nat)
    (b : Json) (st : St) (s : ScanRec)
    (hmem : s ∈ st.scans) (hasset : s.asset = tag)
    (hhash : s.bundle_hash = sha256Hex (utf8Encode (canonicalDumps s.raw_json)))
    (hcanon : canonicalDumps b = canonicalDumps s.raw_json)
    (hvalid : validateBundle b = true)
    (hid : bundleAssetId b = tag) :
    asset_scan_upload tag user notes now b st = (st, .duplicate) := by
  obtain ⟨fs, hfs⟩ := bundleIntake_obj_of_valid hvalid
  unfold asset_scan_upload
  rw [hvalid]
  simp only [Bool.not_true, Bool.false_eq_true, if_false]
  rw [hfs]
  rw [if_neg (by simp [hid])]
  have hany : st.scans.any (fun sc => sc.asset == tag &&
      sc.bundle_hash == sha256Hex (utf8Encode (canonicalDumps b))) = true := by
    rw [List.any_eq_true]
    refine ⟨s, hmem, ?_⟩
    rw [Bool.and_eq_true, beq_iff_eq, beq_iff_eq]
    exact ⟨hasset, by rw [hcanon, ← hhash]⟩
  rw [if_pos hany]

/-- A well-formed scan bundle for asset `A1`. -/
def c1bundle : Json := Json.mkObj [
  ("schema", .str "motherboard.scan_bundle.v1"),
  ("generated_at", .str "2026-01-01T00:00:00Z"),
  ("scanner", Json.mkObj [("hostname", .str "host1"), ("user", .str "tech")]),
  ("intake", Json.mkObj [("asset_id", .str "A1"), ("tech_name", .str "Sam")]),
  ("sources", Json.mkObj [("lshw", Json.mkObj [("id", .str "computer")])]),
  ("meta", Json.mkObj [("status", .str "ok")])]

/-- `c1bundle` with every dict's key order permuted: identical content,
identical canonical serialisation. -/
def c1bundlePermuted : Json := Json.mkObj [
  ("meta", Json.mkObj [("status", .str "ok")]),
  ("sources", Json.mkObj [("lshw", Json.mkObj [("id", .str "computer")])]),
  ("intake", Json.mkObj [("tech_name", .str "Sam"), ("asset_id", .str "A1")]),
  ("scanner", Json.mkObj [("user", .str "tech"), ("hostname", .str "host1")]),
  ("generated_at", .str "2026-01-01T00:00:00Z"),
  ("schema", .str "motherboard.scan_bundle.v1")]

/-- The persisted scan row a first ingestion of `c1bundle` leaves behind. -/
def c1scan : ScanRec :=
  { id := 0, asset := "A1", device_serial := none, raw_json := c1bundle,
    bundle_hash := sha256Hex (utf8Encode (canonicalDumps c1bundle)),
    schema := .str "motherboard.scan_bundle.v1",
    generated_at_raw := .str "2026-01-01T00:00:00Z",
    tech_name := .str "Sam", client_name := .str "",
    cosmetic_condition := .str "", intake_note := .str "",
    summary := none, scanned_at := 1, scanned_by := "tech", user_notes := "" }

def c1state : St := ⟨[c1scan], [], []⟩

/-- Witness for C1: the key-permuted bundle re-ingested for `A1` is a
duplicate no-op on the state holding its first ingestion. -/
theorem scan_upload_duplicate_noop_witness :
    asset_scan_upload "A1" "tech2" "again" 7 c1bundlePermuted c1state =
      (c1state, .duplicate) :=
  scan_upload_duplicate_noop "A1" "tech2" "again" 7 c1bundlePermuted c1state
    c1scan (List.mem_singleton.mpr rfl) rfl rfl (by rfl) (by rfl) (by rfl)

/-! ## C2 — asset-id mismatch rejection -/

/-- **C2.**  A structurally valid bundle whose `intake.asset_id` does not
string-equal the target asset tag is rejected before any write: the state is
returned unchanged (no scan, no drive, no touch), and the outcome is the
mismatch rejection, a distinct outcome from a form-validation failure. -/
theorem scan_upload_mismatch_rejected (tag user notes : String) (now : Nat)
    (b : Json) (st : St) (hvalid : validateBundle b = true)
    (hid : bundleAssetId b ≠ tag) :
    asset_scan_upload tag user notes now b st = (st, .rejectedMismatch) ∧
    UploadOutcome.rejectedMismatch ≠ UploadOutcome.formInvalid := by
  refine ⟨?_, by simp⟩
  obtain ⟨fs, hfs⟩ := bundleIntake_obj_of_valid hvalid
  unfold asset_scan_upload
  rw [hvalid]
  simp only [Bool.not_true, Bool.false_eq_true, if_false]
  rw [hfs]
  rw [if_pos hid]

/-- A valid bundle addressed to asset `A2`. -/
def c2bundle : Json := Json.mkObj [
  ("schema", .str "motherboard.scan_bundle.v1"),
  ("generated_at", .str "2026-01-01T00:00:00Z"),
  ("scanner", Json.mkObj [("hostname", .str "host1"), ("user", .str "tech")]),
  ("intake", Json.mkObj [("asset_id", .str "A2")]),
  ("sources", Json.mkObj [("lshw", Json.mkObj [("id", .str "computer")])]),
  ("meta", Json.mkObj [("status", .str "ok")])]

/-- Witness for C2: uploading the `A2` bundle to asset `A1` is rejected with
the state untouched. -/
theorem scan_upload_mismatch_rejected_witness :
    asset_scan_upload "A1" "tech" "" 3 c2bundle ⟨[], [], []⟩ =
      (⟨[], [], []⟩, .rejectedMismatch) :=
  (scan_upload_mismatch_rejected "A1" "tech" "" 3 c2bundle ⟨[], [], []⟩
    (by rfl) (by decide)).1

/-! ## C5 — drive reconciliation frame -/

/-- The overwrite `update_or_create` applies to an existing row: the four
reconciliation fields from the disk fact, `source="lshw"`, and the
`auto_now` timestamp. -/
def driveOverwrite (d : DriveRec) (disk : DiskFact) (now : Nat) : DriveRec :=
  { d with
    logicalname := disk.logicalname
    capacity_bytes := disk.size_bytes
    model := disk.model
    source := "lshw"
    status_at := now }

/-- The row `update_or_create` creates when no `(asset, serial)` match
exists: reconciliation fields plus the model's status defaults. -/
def driveCreated (tag : String) (disk : DiskFact) (now : Nat) : DriveRec :=
  { asset := tag
    serial := disk.serial
    logicalname := disk.logicalname
    capacity_bytes := disk.size_bytes
    model := disk.model
    source := "lshw"
    status := "present"
    status_note := ""
    status_by := none
    status_at := now }

/-- An existing drive row for asset `A1`, with a manual source, a set status
lifecycle, and a last status change at time 3. -/
def c5drive : DriveRec :=
  { asset := "A1"
    serial := "SER123456"
    logicalname := "/dev/sdb"
    capacity_bytes := some 1000
    model := .str "OldModel"
    source := "manual"
    status := "wiped"
    status_note := "done"
    status_by := some "bob"
    status_at := 3 }

/-- A rescanned disk fact with the same serial. -/
def c5disk : DiskFact :=
  { serial := "SER123456"
    logicalname := "/dev/sda"
    size_bytes := some 500
    model := .str "NewModel" }

/-- **C5, counterexample.**  Upserting `c5disk` over `c5drive` at time 9
sets `source` to `"lshw"` — not `"scan"` as the claim states (the `Drive`
model has no `"scan"` source choice at all) — and refreshes `status_at` to
the save time 9 (the `auto_now=True` declaration), contradicting the claim
that all four status lifecycle fields are left unchanged. -/
theorem drive_upsert_fields_cex :
    ((upsertDrive "A1" 9 [c5drive] c5disk).headD c5drive).source = "lshw" ∧
    ("lshw" ≠ "scan") ∧
    ((upsertDrive "A1" 9 [c5drive] c5disk).headD c5drive).status_at = 9 ∧
    c5drive.status_at = 3 ∧ (9 ≠ 3) :=
  ⟨rfl, by decide, rfl, rfl, by decide⟩

/-- **C5, amended.**  For every disk fact with a non-blank serial, the
reconciliation loop upserts the drive row keyed by `(asset, serial)`:
an existing row has exactly `logicalname`, `capacity_bytes`, `model` and
`source` (set to `"lshw"`) overwritten, keeps `status`, `status_note` and
`status_by`, and has `status_at` refreshed to the save time (`auto_now`);
a missing row is created with those values and the status defaults; a
blank-serial fact is skipped. -/
theorem drive_upsert_amended (tag : String) (now : Nat) (drives : List DriveRec)
    (disk : DiskFact) :
    ((pyStrip disk.serial).isEmpty = true → upsertDrive tag now drives disk = drives) ∧
    (∀ i d, (pyStrip disk.serial).isEmpty = false →
      drives.findIdx? (fun dr => dr.asset == tag && dr.serial == disk.serial) = some i →
      drives.get? i = some d →
      upsertDrive tag now drives disk = drives.set i (driveOverwrite d disk now) ∧
      (driveOverwrite d disk now).logicalname = disk.logicalname ∧
      (driveOverwrite d disk now).capacity_bytes = disk.size_bytes ∧
      (driveOverwrite d disk now).model = disk.model ∧
      (driveOverwrite d disk now).source = "lshw" ∧
      (driveOverwrite d disk now).status = d.status ∧
      (driveOverwrite d disk now).status_note = d.status_note ∧
      (driveOverwrite d disk now).status_by = d.status_by ∧
      (driveOverwrite d disk now).status_at = now ∧
      (driveOverwrite d disk now).asset = d.asset ∧
      (driveOverwrite d disk now).serial = d.serial) ∧
    ((pyStrip disk.serial).isEmpty = false →
      drives.findIdx? (fun dr => dr.asset == tag && dr.serial == disk.serial) = none →
      upsertDrive tag now drives disk = drives ++ [driveCreated tag disk now]) := by
  have hskip : disk.serial.isEmpty = true → (pyStrip disk.serial).isEmpty = true := by
    intro h
    rw [(String.isEmpty_iff _).mp h]
    rfl
  refine ⟨?_, ?_, ?_⟩
  · intro h
    unfold upsertDrive
    rw [if_pos (by rw [h]; simp)]
  · intro i d hblank hidx hget
    have hne : disk.serial.isEmpty = false := by
      cases hse : disk.serial.isEmpty
      · rfl
      · rw [hskip hse] at hblank; exact Bool.noConfusion hblank
    refine ⟨?_, rfl, rfl, rfl, rfl, rfl, rfl, rfl, rfl, rfl, rfl⟩
    unfold upsertDrive
    rw [if_neg (by rw [hne, hblank]; simp)]
    simp only [hidx, hget]
    rfl
  · intro hblank hidx
    have hne : disk.serial.isEmpty = false := by
      cases hse : disk.serial.isEmpty
      · rfl
      · rw [hskip hse] at hblank; exact Bool.noConfusion hblank
    unfold upsertDrive
    rw [if_neg (by rw [hne, hblank]; simp)]
    simp only [hidx]
    rfl

/-- Witness for C5's amended update case at `c5drive`/`c5disk`. -/
theorem drive_upsert_amended_witness :
    upsertDrive "A1" 9 [c5drive] c5disk =
      [c5drive].set 0 (driveOverwrite c5drive c5disk 9) :=
  ((drive_upsert_amended "A1" 9 [c5drive] c5disk).2.1 0 c5drive (by rfl)
    (by rfl) (by rfl)).1

/-! ## C4 — memory-total resolution -/

/-- Pure mirror of `sysMemStepM`, defined on the non-raising inputs
(`pyLowerOrEmptyD`); `sysMemFold_ok` below shows the two agree whenever the
monadic loop succeeds. -/
def sysMemStepP (acc : Option Int) (n : Json) : Option Int :=
  if jEqStr (jgetD n "class" .null) "memory" && truthy (jgetD n "size" .null) then
    if strContains (pyLowerOrEmptyD (jgetD n "description" .null)) "system memory" then
      match pyInt (jgetD n "size" .null) with
      | some v => some v
      | none => acc
    else acc
  else acc

/-- The value the system-memory search loop leaves behind on a non-raising
document: the `int`-converted size of the *last* walked `memory`-class node
with a truthy size described as `"system memory"` (`None` if none converts). -/
def sysMemPure (raw : Json) : Option Int :=
  (walkNodes raw).foldl sysMemStepP none

theorem sysMemStepM_ok (acc : Option Int) (n : Json) (r : Option Int)
    (h : sysMemStepM acc n = .ok r) : r = sysMemStepP acc n := by
  unfold sysMemStepM at h
  unfold sysMemStepP
  by_cases hg : (jEqStr (jgetD n "class" .null) "memory" &&
      truthy (jgetD n "size" .null)) = true
  · rw [if_pos hg] at h
    rw [if_pos hg]
    cases hd : pyLowerOrEmpty (jgetD n "description" .null) with
    | error e => rw [hd] at h; simp [bind, Except.bind] at h
    | ok d =>
      rw [hd] at h
      simp only [bind, Except.bind] at h
      rw [← pyLowerOrEmpty_ok hd]
      by_cases hc : strContains d "system memory" = true
      · rw [if_pos hc] at h
        rw [if_pos hc]
        simp only [pure, Except.pure] at h
        exact (Except.ok.injEq _ _ ▸ h).symm
      · rw [if_neg hc] at h
        rw [if_neg hc]
        simp only [pure, Except.pure] at h
        exact (Except.ok.injEq _ _ ▸ h).symm
  · rw [if_neg hg] at h
    rw [if_neg hg]
    simp only [pure, Except.pure] at h
    exact (Except.ok.injEq _ _ ▸ h).symm

theorem sysMemFold_ok {raw : Json} {mt0 : Option Int}
    (h : sysMemFold raw = .ok mt0) : mt0 = sysMemPure raw :=
  foldlM_except_ok sysMemStepM sysMemStepP sysMemStepM_ok _ _ _ h

/-- The truthy (non-null, nonzero) slot sizes, in slot order. -/
def sizedSlotSizes (slots : List MemorySlot) : List Int :=
  slots.filterMap (fun ms =>
    match ms.size_bytes with
    | some v => if v ≠ 0 then some v else none
    | none => none)

/-- The RAM-string branch of the resolution: parse `hw_summary["ram"]` when
it is a non-blank string (`None` on parse failure), else leave the residual
value untouched. -/
def ramStrFallback (hw : Option BasicHw) (residual : Option Int) : Option Int :=
  match hw with
  | some bh =>
    match bh.ram with
    | some rs => if (pyStrip rs).isEmpty then residual else parseRamStr rs
    | none => residual
  | none => residual

theorem slots_foldl_pair (slots : List MemorySlot) : ∀ (a : Int) (b : Bool),
    slots.foldl
      (fun (acc : Int × Bool) ms =>
        match ms.size_bytes with
        | some v => if v ≠ 0 then (acc.1 + v, true) else acc
        | none => acc)
      (a, b)
    = (a + (sizedSlotSizes slots).sum, b || !(sizedSlotSizes slots).isEmpty) := by
  induction slots with
  | nil => intro a b; simp [sizedSlotSizes]
  | cons ms rest ih =>
    intro a b
    rw [List.foldl_cons]
    cases hsb : ms.size_bytes with
    | none =>
      simp only
      rw [ih a b]
      simp [sizedSlotSizes, List.filterMap_cons, hsb]
    | some v =>
      by_cases hv : v ≠ 0
      · simp only [hsb, if_pos hv]
        rw [ih (a + v) true]
        have : sizedSlotSizes (ms :: rest) = v :: sizedSlotSizes rest := by
          simp [sizedSlotSizes, List.filterMap_cons, hsb, hv]
        rw [this]
        simp [add_assoc]
      · simp only [hsb, if_neg hv]
        rw [ih a b]
        have : sizedSlotSizes (ms :: rest) = sizedSlotSizes rest := by
          simp [sizedSlotSizes, List.filterMap_cons, hsb, hv]
        rw [this]

theorem resolveMemTotal_eq (mt0 : Option Int) (slots : List MemorySlot)
    (hw : Option BasicHw) :
    resolveMemTotal mt0 slots hw =
      (match mt0 with
       | some v =>
         if v ≠ 0 then some v
         else if (sizedSlotSizes slots).isEmpty then ramStrFallback hw (some 0)
         else some (sizedSlotSizes slots).sum
       | none =>
         if (sizedSlotSizes slots).isEmpty then ramStrFallback hw none
         else some (sizedSlotSizes slots).sum) := by
  unfold resolveMemTotal
  cases mt0 with
  | none =>
    simp only
    rw [slots_foldl_pair slots 0 false]
    simp only [Bool.false_or, zero_add]
    cases he : (sizedSlotSizes slots).isEmpty with
    | true => simp [he, ramStrFallback]
    | false => simp [he]
  | some v =>
    by_cases hv : v = 0
    · subst hv
      simp only [bne_self_eq_false, Bool.false_eq_true, if_false]
      rw [slots_foldl_pair slots 0 false]
      simp only [Bool.false_or, zero_add]
      cases he : (sizedSlotSizes slots).isEmpty with
      | true => simp [he, ramStrFallback]
      | false => simp [he]
    · have hbne : (v != 0) = true := by simpa using hv
      simp [hbne, hv]

theorem parse_ok_memory {data : Json} {s : Summary}
    (h : parse_lshw_json data = .ok s) :
    ∃ mt0, sysMemFold data = .ok mt0 ∧
      s.memory_total_bytes = resolveMemTotal mt0 s.memory_slots s.hw_summary := by
  unfold parse_lshw_json at h
  cases h1 : extract_basic_hw data with
  | error e => rw [h1] at h; simp [bind, Except.bind] at h
  | ok hw =>
  rw [h1] at h
  simp only [bind, Except.bind] at h
  cases h2 : parse_disks data with
  | error e => rw [h2] at h; simp [Except.bind] at h
  | ok disks =>
  rw [h2] at h
  simp only [Except.bind] at h
  cases h3 : extract_network data with
  | error e => rw [h3] at h; simp [Except.bind] at h
  | ok network =>
  rw [h3] at h
  simp only [Except.bind] at h
  cases h4 : extract_multimedia data with
  | error e => rw [h4] at h; simp [Except.bind] at h
  | ok mm =>
  rw [h4] at h
  simp only [Except.bind] at h
  cases h5 : extract_battery data with
  | error e => rw [h5] at h; simp [Except.bind] at h
  | ok battery =>
  rw [h5] at h
  simp only [Except.bind] at h
  cases h6 : sysMemFold data with
  | error e => rw [h6] at h; simp [Except.bind] at h
  | ok mt0 =>
  rw [h6] at h
  simp only [Except.bind] at h
  cases h7 : slotsFold data with
  | error e => rw [h7] at h; simp [Except.bind] at h
  | ok slots =>
  rw [h7] at h
  simp only [Except.bind, pure, Except.pure] at h
  refine ⟨mt0, rfl, ?_⟩
  cases h
  rfl

/-- The resolution order exactly as the claim words it: *the size of a
memory-class node whose description contains "system memory" if one exists;
else the sum of slot sizes, taken only if at least one slot has a size; else
the value parsed back from the hw_summary ram string; else null.*  (The
authoritative size is the last successfully `int`-converted truthy size in
walk order — used whenever such a node exists, as the claim states.) -/
def memTotalClaimSpec (data : Json) (slots : List MemorySlot)
    (hw : Option BasicHw) : Option Int :=
  match sysMemPure data with
  | some v => some v
  | none =>
    if (sizedSlotSizes slots).isEmpty then ramStrFallback hw none
    else some (sizedSlotSizes slots).sum

/-- The resolution order the code actually implements: a *zero*-converting
system-memory size does not count as authoritative (the fallbacks run), but
when every fallback also misses, the residual `0` — not `null` — is the
result. -/
def memTotalAmendedSpec (data : Json) (slots : List MemorySlot)
    (hw : Option BasicHw) : Option Int :=
  match sysMemPure data with
  | some v =>
    if v ≠ 0 then some v
    else if (sizedSlotSizes slots).isEmpty then ramStrFallback hw (some 0)
    else some (sizedSlotSizes slots).sum
  | none =>
    if (sizedSlotSizes slots).isEmpty then ramStrFallback hw none
    else some (sizedSlotSizes slots).sum

/-- A document whose system-memory node carries the string size `"0"`
(truthy, `int`-convertible, zero) above one 1024-byte bank. -/
def c4doc : Json := Json.mkObj [
  ("class", .str "memory"), ("size", .str "0"),
  ("description", .str "System Memory"),
  ("children", Json.mkArr [Json.mkObj [("id", .str "bank:0"), ("size", .num 1024)]])]

/-- **C4, counterexample.**  On `c4doc` a system-memory node exists, so the
claim's resolution uses its (zero) size; the code instead treats the zero as
missing and answers `1024` from the bank slot: the claim's "exact fallback
order" does not hold as stated. -/
theorem memory_total_claim_cex :
    (parse_lshw_json c4doc).map
      (fun s => (s.memory_total_bytes,
        memTotalClaimSpec c4doc s.memory_slots s.hw_summary)) =
      .ok (some 1024, some 0) ∧
    (some (1024 : Int) ≠ some (0 : Int)) :=
  ⟨by rfl, by decide⟩

/-- Banks-only document: two 4 GiB banks, no system-memory node. -/
def c4bankDoc : Json := Json.mkObj [
  ("id", .str "computer"), ("class", .str "system"),
  ("children", Json.mkArr [Json.mkObj [
    ("id", .str "memory"), ("class", .str "memory"),
    ("children", Json.mkArr [
      Json.mkObj [("id", .str "bank:0"), ("class", .str "memory"),
        ("size", .num 4294967296)],
      Json.mkObj [("id", .str "bank:1"), ("class", .str "memory"),
        ("size", .num 4294967296)]])]])]

def c4noSourceDoc : Json := Json.mkObj [("id", .str "computer")]

/-- **C4, amended.**  On every successfully parsed document,
`memory_total_bytes` resolves as: the last `int`-converted truthy
system-memory size when nonzero; else the sum of truthy slot sizes when at
least one exists; else the value parsed from the `hw_summary` RAM string
(multipliers KB/MB/GB/TB, `null` on parse failure) when that string is
non-blank; else the residual `0` when a system-memory size converted to
zero, else `null`.  In particular the banks-only document yields
`8 * 1024^3` and a document with none of the three sources yields `null`. -/
theorem memory_total_resolution_amended (data : Json) (s : Summary)
    (h : parse_lshw_json data = .ok s) :
    s.memory_total_bytes = memTotalAmendedSpec data s.memory_slots s.hw_summary ∧
    (parse_lshw_json c4bankDoc).map (·.memory_total_bytes) =
      .ok (some (8 * 1024 ^ 3)) ∧
    (parse_lshw_json c4noSourceDoc).map (·.memory_total_bytes) = .ok none := by
  refine ⟨?_, by rfl, by rfl⟩
  obtain ⟨mt0, h6, heq⟩ := parse_ok_memory h
  rw [heq, sysMemFold_ok h6, resolveMemTotal_eq]
  rfl

def c4emptySummary : Summary :=
  ⟨none, none, none, [], none, [], [], ⟨false, "", false, ""⟩, .absent, [], none⟩

/-- Witness for C4's amended theorem at the empty document. -/
theorem memory_total_resolution_amended_witness :
    c4emptySummary.memory_total_bytes =
      memTotalAmendedSpec (Json.mkObj []) c4emptySummary.memory_slots
        c4emptySummary.hw_summary :=
  (memory_total_resolution_amended (Json.mkObj []) c4emptySummary (by rfl)).1
